import Mathlib

/-!
Verification of `lib/update_comfyui.py`, a pygit2-based repository updater.

The script is shallowly embedded: repository state (references, HEAD, index,
working tree, stash list, created commits, printed output lines) is an explicit
`Repo` structure, and the backend outcomes the script merely observes
(merge-analysis flags, conflict lists, stash failures, fetch results, the
backup-branch timestamp) are inputs collected in oracle structures, so that a
theorem quantifying over the oracle quantifies over all runs.

Pure pieces (`find_latest_stable_tag`, the tag-version parsing built on
Python's `int`) are translated directly as functions on character lists;
Python's `list.sort()` on `(tuple, str)` pairs is modelled by a stable
insertion sort under the same total preorder.  Python's `int(str)` is modelled
for ASCII digits and ASCII whitespace (optional surrounding whitespace, one
optional sign, digits with single underscores between them).
-/

/- ### Generic character-list helpers -/

/-- Boolean list-prefix test (used to model Python's `str.startswith`). -/
def isPrefixL : List Char → List Char → Bool
  | [], _ => true
  | _ :: _, [] => false
  | a :: as, b :: bs => a == b && isPrefixL as bs

/-- Models Python's `s.split(".")` on a character list: `""` gives `[""]`,
separators are single dots, empty components are kept. -/
def splitDot : List Char → List (List Char)
  | [] => [[]]
  | c :: cs =>
    let r := splitDot cs
    if c = '.' then [] :: r
    else
      match r with
      | h :: t => (c :: h) :: t
      | [] => [[c]]

/- ### Model of Python `int(str)` (ASCII fragment) -/

/-- The ASCII whitespace characters stripped by Python `int()`. -/
def isPySpace (c : Char) : Bool :=
  c = ' ' || c = '\t' || c = '\n' || c = '\r' || c = '\x0b' || c = '\x0c'

def pyStripChars (l : List Char) : List Char :=
  ((l.dropWhile isPySpace).reverse.dropWhile isPySpace).reverse

def digitVal (c : Char) : Nat := c.toNat - 48

/-- Digit run after the first digit: single underscores allowed between
digits, as in Python numeric literals accepted by `int()`. -/
def pyDigitsLoop (acc : Nat) : List Char → Option Nat
  | [] => some acc
  | '_' :: c :: cs => if c.isDigit then pyDigitsLoop (acc * 10 + digitVal c) cs else none
  | c :: cs => if c.isDigit then pyDigitsLoop (acc * 10 + digitVal c) cs else none

def pyDigitsVal : List Char → Option Nat
  | [] => none
  | c :: cs => if c.isDigit then pyDigitsLoop (digitVal c) cs else none

/-- Models Python `int(str)` on ASCII input: strip whitespace, one optional
sign, then a digit run.  Note a leading `-` yields a negative integer. -/
def pyIntChars (l : List Char) : Option Int :=
  match pyStripChars l with
  | '-' :: rest => (pyDigitsVal rest).map (fun n => -(n : Int))
  | '+' :: rest => (pyDigitsVal rest).map (fun n => (n : Int))
  | rest => (pyDigitsVal rest).map (fun n => (n : Int))

/-- `tuple(map(int, parts))`: all components must parse, else the tag is
dropped (the `except (ValueError, IndexError)` in the source). -/
def mapPyInt : List (List Char) → Option (List Int)
  | [] => some []
  | c :: cs =>
    match pyIntChars c, mapPyInt cs with
    | some v, some vs => some (v :: vs)
    | _, _ => none

/- ### The version-tag selector (`find_latest_stable_tag`) -/

/-- The loop body of `find_latest_stable_tag`: a ref name contributes a
version iff it starts with `refs/tags/v` and every dot-separated component of
the remaining suffix parses with Python `int`. -/
def parseTag (rn : String) : Option (List Int) :=
  if isPrefixL "refs/tags/v".data rn.data then mapPyInt (splitDot (rn.data.drop 11))
  else none

/-- Python `<` on int tuples / lists and on strings, generically: strict
lexicographic order lifted from a strict order on elements. -/
def lexLt (lt : α → α → Bool) : List α → List α → Bool
  | [], [] => false
  | [], _ :: _ => true
  | _ :: _, [] => false
  | a :: as, b :: bs => if lt a b then true else if lt b a then false else lexLt lt as bs

def intLtB (a b : Int) : Bool := decide (a < b)

def charLtB (a b : Char) : Bool := decide (a.toNat < b.toNat)

/-- Python `<` on int tuples (component-wise comparison). -/
def tupLt (a b : List Int) : Bool := lexLt intLtB a b

/-- Python `<` on strings (code-point lexicographic). -/
def strLtB (a b : String) : Bool := lexLt charLtB a.data b.data

/-- Python `<` on the `(parts, ref_name)` pairs stored in `versions`. -/
def pairLt (a b : List Int × String) : Bool :=
  tupLt a.1 b.1 || (a.1 == b.1 && strLtB a.2 b.2)

/-- The non-strict order `list.sort()` sorts by: `a` may precede `b`. -/
def pairLe (a b : List Int × String) : Bool := !(pairLt b a)

/-- Stable insertion into an ascending list: the new element goes after every
element `y` with `le y x`. -/
def insertAsc (le : α → α → Bool) (x : α) : List α → List α
  | [] => [x]
  | y :: ys => if le y x then y :: insertAsc le x ys else x :: y :: ys

/-- Stable ascending sort (extensionally equal to Python's stable
`list.sort()` for a total preorder `le`). -/
def sortAsc (le : α → α → Bool) (l : List α) : List α :=
  l.foldl (fun acc x => insertAsc le x acc) []

/-- `find_latest_stable_tag`, translated from the source: filter the ref
names through `parseTag`, sort the `(parts, name)` pairs ascending, return
the name of the last pair (`versions[-1][1]`), or nothing if none survived. -/
def find_latest_stable_tag (refNames : List String) : Option String :=
  let versions := refNames.filterMap (fun rn => (parseTag rn).map (fun p => (p, rn)))
  let sorted := sortAsc pairLe versions
  sorted.getLast?.map (fun v => v.2)

/-- Modelled from the claim's words, NOT from the source: the claim's filter
keeps a tag only when every component parses as a NON-NEGATIVE integer. -/
def parseTagNonneg (rn : String) : Option (List Int) :=
  match parseTag rn with
  | some p => if p.all (fun v => 0 ≤ v) then some p else none
  | none => none

/-- Modelled from the claim's words, NOT from the source: the selector the
claim describes, with the non-negative filter. -/
def select_latest_nonneg (refNames : List String) : Option String :=
  let versions := refNames.filterMap (fun rn => (parseTagNonneg rn).map (fun p => (p, rn)))
  let sorted := sortAsc pairLe versions
  sorted.getLast?.map (fun v => v.2)

/- ### Repository state model

The pygit2 repository surface the script touches is made explicit: a flat
table of named references (`refs/heads/...`, `refs/remotes/...`,
`refs/tags/...`), a HEAD that is either symbolic to a branch or detached at
a commit, the object store's commit-to-tree view, the commits created during
the run, an in-memory and an on-disk index, the working tree, the
merge-in-progress flag, the stash list, the configured remotes and the lines
printed so far.  Tree and commit identities are natural numbers. -/

structure Commit where
  parents : List Nat
  message : String
  tree : Nat
  author : String
deriving DecidableEq

inductive Head where
  | branch (name : String)
  | detached (id : Nat)
deriving DecidableEq

structure Repo where
  refs : List (String × Nat)
  head : Head
  treeOf : Nat → Nat
  created : List (Nat × Commit)
  nextId : Nat
  indexMem : Nat
  indexDisk : Nat
  workTree : Nat
  merging : Bool
  stashes : List (Nat × Nat)
  remotes : List String
  defaultSig : String
  output : List String

/-- One conflict record from `repo.index.conflicts`: the (ancestor, ours,
theirs) index entries, each possibly absent, reduced to their paths. -/
structure Conflict where
  ancestor : Option String
  ours : Option String
  theirs : Option String
deriving DecidableEq

/-- `next((x for x in conflict if x is not None), None)` followed by
`entry.path if entry else "unknown"`. -/
def conflictPath (c : Conflict) : String :=
  match c.ancestor with
  | some p => p
  | none =>
    match c.ours with
    | some p => p
    | none =>
      match c.theirs with
      | some p => p
      | none => "unknown"

/-- Backend outcomes observed inside `pull`: the three merge-analysis flag
bits, the index produced by `repo.merge`, and the conflict list (`none`
models `repo.index.conflicts is None`). -/
structure PullOracle where
  upToDate : Bool
  fastforward : Bool
  normal : Bool
  mergedTree : Nat
  conflicts : Option (List Conflict)

/-- Outcome of one `repo.stash(ident)` call: success, `KeyError` ("nothing
to stash"), or any other exception. -/
inductive StashOutcome where
  | ok
  | keyError
  | other
deriving DecidableEq

/-- Backend outcomes observed by `main`: both stash attempts, the timestamp
used in the backup branch name, whether branch creation succeeds, whether
the fetch call raises, what the fetch writes, and the pull outcomes. -/
structure Oracle where
  stash1 : StashOutcome
  stash2 : StashOutcome
  timestamp : String
  backupOk : Bool
  fetchErr : Bool
  fetchedMaster : Option Nat
  fetchedTags : List (String × Nat)
  pullO : PullOracle

/-- A run either completes or aborts with an uncaught exception; either way
the repository state (including the lines already printed) is kept. -/
inductive RunResult where
  | ok (s : Repo)
  | err (msg : String) (s : Repo)

def RunResult.state : RunResult → Repo
  | .ok s => s
  | .err _ s => s

def RunResult.andThen : RunResult → (Repo → RunResult) → RunResult
  | .ok s, f => f s
  | .err m s, _ => .err m s

/- ### Primitive repository operations -/

def lookupRef (s : Repo) (n : String) : Option Nat :=
  (s.refs.find? (fun p => p.1 == n)).map (fun p => p.2)

/-- Repoint an existing reference or create it (`set_target`,
`create_branch`, fetch refspec update all land here).  The reference table
is a finite map from names to commit ids; its list order is immaterial. -/
def setRefList (refs : List (String × Nat)) (n : String) (i : Nat) :
    List (String × Nat) :=
  (n, i) :: refs.filter (fun p => !(p.1 == n))

def setRef (s : Repo) (n : String) (i : Nat) : Repo :=
  { s with refs := setRefList s.refs n i }

/-- The commit HEAD resolves to (`repo.head.target`); `none` when HEAD is
symbolic to a branch that does not exist (pygit2 raises there). -/
def headTarget (s : Repo) : Option Nat :=
  match s.head with
  | .branch b => lookupRef s ("refs/heads/" ++ b)
  | .detached i => some i

/-- `print(line)`: append one output line. -/
def emit (s : Repo) (line : String) : Repo :=
  { s with output := s.output ++ [line] }

/-- `repo.checkout_tree(commit)` / the tree part of `repo.checkout`: the
working tree and both index views follow the commit's tree. -/
def checkoutTree (s : Repo) (i : Nat) : Repo :=
  { s with workTree := s.treeOf i, indexMem := s.treeOf i, indexDisk := s.treeOf i }

/-- Attach HEAD symbolically to a branch (`repo.checkout(ref)`). -/
def setHeadBranch (s : Repo) (b : String) : Repo := { s with head := .branch b }

/-- Detach HEAD at a commit (`set_target` on a direct HEAD, tag checkout). -/
def detachHead (s : Repo) (i : Nat) : Repo := { s with head := .detached i }

/-- `repo.merge(remote_id)`: the merged result (oracle-supplied tree `t`) is
written to the index and working tree; the merge-in-progress state rises. -/
def mergeWrite (s : Repo) (t : Nat) : Repo :=
  { s with indexMem := t, indexDisk := t, workTree := t, merging := true }

/-- `repo.state_cleanup()`. -/
def stateCleanup (s : Repo) : Repo := { s with merging := false }

/-- `repo.index.read_tree(tree)`: updates the in-memory index only. -/
def indexReadTree (s : Repo) (t : Nat) : Repo := { s with indexMem := t }

/-- `repo.index.write()`: persist the in-memory index to disk. -/
def indexWrite (s : Repo) : Repo := { s with indexDisk := s.indexMem }

/-- `repo.create_commit(...)`: allocate a fresh commit id, record the
commit object, extend the commit-to-tree view of the object store. -/
def addCommit (s : Repo) (c : Commit) : Repo :=
  { s with created := s.created ++ [(s.nextId, c)], nextId := s.nextId + 1,
           treeOf := fun i => if i = s.nextId then c.tree else s.treeOf i }

/- ### `pull(repo, remote_name="origin", branch="master")` -/

/-- Translation of `pull`, with the backend's merge-analysis and merge
outcomes supplied by the oracle.  The remote and branch names are the
defaults the script uses (`origin`, `master`). -/
def pull (o : PullOracle) (s : Repo) (remoteName : String) (branch : String) : RunResult :=
  match lookupRef s ("refs/remotes/" ++ remoteName ++ "/" ++ branch) with
  | none => .err "KeyError: remote reference not found" s
  | some remoteId =>
    if o.upToDate then
      .ok (emit s "Already up to date.")
    else if o.fastforward then
      -- repo.checkout_tree(repo.get(remote_id))
      let s1 := checkoutTree s remoteId
      -- try: local_ref.set_target(remote_id); except KeyError: create_branch.
      -- Both arms repoint refs/heads/<branch> to remote_id in this model.
      let s2 := setRef s1 ("refs/heads/" ++ branch) remoteId
      -- repo.head.set_target(remote_id)
      match s2.head with
      | .branch b =>
        match lookupRef s2 ("refs/heads/" ++ b) with
        | some _ => .ok (setRef s2 ("refs/heads/" ++ b) remoteId)
        | none => .err "GitError: HEAD unborn" s2
      | .detached _ => .ok (detachHead s2 remoteId)
    else if o.normal then
      let s1 := mergeWrite s o.mergedTree
      match o.conflicts with
      | some cs =>
        let s2 := cs.foldl (fun acc c => emit acc ("Conflict in: " ++ conflictPath c)) s1
        .err "Merge conflicts detected. Aborting." s2
      | none =>
        match headTarget s1 with
        | none => .err "GitError: HEAD unborn" s1
        | some h =>
          -- tree = repo.index.write_tree(); create_commit("HEAD", ...)
          let newId := s1.nextId
          let c : Commit := { parents := [h, remoteId], message := "Merge!",
                              tree := s1.indexMem, author := s1.defaultSig }
          let s2 := addCommit s1 c
          let s3 :=
            match s2.head with
            | .branch b => setRef s2 ("refs/heads/" ++ b) newId
            | .detached _ => detachHead s2 newId
          -- repo.state_cleanup()
          .ok (stateCleanup s3)
    else .err "Unknown merge analysis result" s

/- ### `main()` decomposed into its sequential steps -/

/-- `pre_head = str(repo.head.target); print("[PRE_UPDATE_HEAD] ...")`. -/
def stepPre (s : Repo) : RunResult :=
  match headTarget s with
  | none => .err "GitError: HEAD unborn" s
  | some h => .ok (emit s ("[PRE_UPDATE_HEAD] " ++ toString h))

/-- A successful `repo.stash(ident)`: record the snapshot and reset the
working tree and index to HEAD's tree. -/
def doStash (s : Repo) (h : Nat) : Repo :=
  { s with stashes := s.stashes ++ [(s.indexDisk, s.workTree)],
           workTree := s.treeOf h, indexMem := s.treeOf h, indexDisk := s.treeOf h }

/-- The stash block of `main`: first attempt; on `KeyError` report a clean
tree; on any other exception clean up the merge state, reset the index to
HEAD's tree (`index.read_tree`), persist it (`index.write`) and retry once,
where only `KeyError` is caught. -/
def stepStash (o : Oracle) (s : Repo) : RunResult :=
  let s := emit s "Stashing current changes…"
  match o.stash1 with
  | .ok =>
    match headTarget s with
    | none => .err "GitError: HEAD unborn" s
    | some h => .ok (doStash s h)
  | .keyError => .ok (emit s "Nothing to stash.")
  | .other =>
    let s := emit s "Could not stash, cleaning index and trying again."
    let s := stateCleanup s
    match headTarget s with
    | none => .err "GitError: HEAD unborn" s
    | some h =>
      let s := indexReadTree s (s.treeOf h)
      let s := indexWrite s
      match o.stash2 with
      | .ok => .ok (doStash s h)
      | .keyError => .ok (emit s "Nothing to stash.")
      | .other => .err "stash failed on retry" s

/-- The backup-branch block: the whole `try` body — `repo.head.peel()`,
`branches.local.create`, and the marker print — is guarded by
`except Exception`, so every failure becomes the warning line. -/
def stepBackup (o : Oracle) (s : Repo) : RunResult :=
  let backupName := "backup_branch_" ++ o.timestamp
  let s := emit s ("Creating backup branch: " ++ backupName)
  match headTarget s with
  | none => .ok (emit s "Warning: could not create backup branch.")
  | some h =>
    if o.backupOk then
      let s := setRef s ("refs/heads/" ++ backupName) h
      .ok (emit s ("[BACKUP_BRANCH] " ++ backupName))
    else .ok (emit s "Warning: could not create backup branch.")

/-- The fetch block: find the remote named `origin` (first match, then
`break`); fetch `+refs/heads/master:refs/remotes/origin/master` and, when
`--stable` was given, `+refs/tags/*:refs/tags/*`.  A repository with no
`origin` remote skips the fetch entirely. -/
def stepFetch (o : Oracle) (stable : Bool) (s : Repo) : RunResult :=
  let s := emit s "Fetching from origin…"
  match s.remotes.find? (fun r => r == "origin") with
  | none => .ok s
  | some _ =>
    if o.fetchErr then .err "fetch failed" s
    else
      let s :=
        match o.fetchedMaster with
        | some i => setRef s "refs/remotes/origin/master" i
        | none => s
      let s :=
        if stable then
          o.fetchedTags.foldl (fun acc p => setRef acc ("refs/tags/" ++ p.1) p.2) s
        else s
      .ok s

/-- The checkout block: `lookup_branch("master")` (returns nothing when the
branch is absent, in which case it is created from
`refs/remotes/origin/master`), then `repo.checkout(ref)` which attaches HEAD
to the branch and checks out its commit's tree. -/
def stepCheckout (s : Repo) : RunResult :=
  let s := emit s "Checking out master branch…"
  let created : RunResult :=
    match lookupRef s "refs/heads/master" with
    | some _ => .ok s
    | none =>
      match lookupRef s "refs/remotes/origin/master" with
      | none => .err "KeyError: refs/remotes/origin/master not found" s
      | some t => .ok (setRef s "refs/heads/master" t)
  created.andThen fun s =>
    match lookupRef s "refs/heads/master" with
    | none => .err "KeyError: refs/heads/master not found" s
    | some t =>
      .ok (setHeadBranch (checkoutTree s t) "master")

/-- The stable-tag block: select the latest version tag from all reference
names; checking out a tag detaches HEAD at the tag's commit. -/
def stepTag (stable : Bool) (s : Repo) : RunResult :=
  if stable then
    match find_latest_stable_tag (s.refs.map (fun p => p.1)) with
    | some t =>
      let s := emit s ("Checking out stable tag: " ++ t)
      match lookupRef s t with
      | none => .err "KeyError: tag not found" s
      | some c =>
        let s := detachHead (checkoutTree s c) c
        let tagName := t.replace "refs/tags/" ""
        .ok (emit s ("[CHECKED_OUT_TAG] " ++ tagName))
    | none => .ok (emit s "No stable tags found, staying on master.")
  else .ok s

/-- `post_head = str(repo.head.target)`, the final marker and `Done!`. -/
def stepPost (s : Repo) : RunResult :=
  match headTarget s with
  | none => .err "GitError: HEAD unborn" s
  | some h =>
    .ok (emit (emit s ("[POST_UPDATE_HEAD] " ++ toString h)) "Done!")

/-- `main()`: argument check, then the step sequence.  `args` is `sys.argv`
(program name included); `--stable` anywhere in it sets the stable flag. -/
def mainRun (o : Oracle) (args : List String) (s : Repo) : RunResult :=
  if args.length < 2 then
    .err "exit 1" (emit s "Usage: python update_comfyui.py <repo_path> [--stable]")
  else
    let stable := args.contains "--stable"
    (stepPre s).andThen fun s =>
    (stepStash o s).andThen fun s =>
    (stepBackup o s).andThen fun s =>
    (stepFetch o stable s).andThen fun s =>
    (stepCheckout s).andThen fun s =>
    (pull o.pullO (emit s "Pulling latest changes…") "origin" "master").andThen fun s =>
    (stepTag stable s).andThen stepPost

def RunResult.isOk : RunResult → Bool
  | .ok _ => true
  | .err _ _ => false

/- ### The structured-marker vocabulary -/

/-- `str.startswith` for strings, via the character lists. -/
def startsWithL (l p : String) : Bool := isPrefixL p.data l.data

/-- The four structured markers, in their contractual relative order. -/
def markerWord : Nat → String
  | 0 => "[PRE_UPDATE_HEAD] "
  | 1 => "[BACKUP_BRANCH] "
  | 2 => "[CHECKED_OUT_TAG] "
  | _ => "[POST_UPDATE_HEAD] "

/-- Classify an output line: which structured marker (if any) starts it. -/
def markerTag (l : String) : Option Nat :=
  if startsWithL l "[PRE_UPDATE_HEAD] " then some 0
  else if startsWithL l "[BACKUP_BRANCH] " then some 1
  else if startsWithL l "[CHECKED_OUT_TAG] " then some 2
  else if startsWithL l "[POST_UPDATE_HEAD] " then some 3
  else none

/-- Invariant carried through the run for claim C9: the markers printed so
far are ordered and all bounded by `n`. -/
def MBound (n : Nat) (l : List String) : Prop :=
  List.Chain' (· ≤ ·) (l.filterMap markerTag) ∧ ∀ j ∈ l.filterMap markerTag, j ≤ n

/- ### Concrete run setups used by the witnesses -/

def sampleRepo : Repo :=
  { refs := [("refs/heads/master", 1), ("refs/remotes/origin/master", 2)],
    head := .branch "master", treeOf := fun i => i + 100, created := [], nextId := 10,
    indexMem := 101, indexDisk := 101, workTree := 101, merging := false,
    stashes := [], remotes := ["origin"], defaultSig := "comfyui", output := [] }

def sampleRepoNoOrigin : Repo := { sampleRepo with remotes := [] }

def oUp : PullOracle :=
  { upToDate := true, fastforward := false, normal := false, mergedTree := 0,
    conflicts := none }

def oFf : PullOracle :=
  { upToDate := false, fastforward := true, normal := false, mergedTree := 0,
    conflicts := none }

def oConf : PullOracle :=
  { upToDate := false, fastforward := false, normal := true, mergedTree := 7,
    conflicts := some [{ ancestor := some "file.txt", ours := none, theirs := none }] }

def oMerge : PullOracle :=
  { upToDate := false, fastforward := false, normal := true, mergedTree := 7,
    conflicts := none }

def oRun : Oracle :=
  { stash1 := .keyError, stash2 := .keyError, timestamp := "2024-01-01_00_00_00",
    backupOk := true, fetchErr := false, fetchedMaster := some 3, fetchedTags := [],
    pullO := oUp }

def oRepair : Oracle :=
  { stash1 := .other, stash2 := .keyError, timestamp := "2024-01-01_00_00_00",
    backupOk := false, fetchErr := false, fetchedMaster := none, fetchedTags := [],
    pullO := oUp }

/- ### Order facts for the sort comparator -/

theorem lexLt_irrefl (lt : α → α → Bool) (hirr : ∀ a, lt a a = false) :
    ∀ l, lexLt lt l l = false
  | [] => rfl
  | a :: as => by simp [lexLt, hirr a, lexLt_irrefl lt hirr as]

theorem lexLt_asymm (lt : α → α → Bool)
    (hasym : ∀ a b, lt a b = true → lt b a = false) :
    ∀ l m, lexLt lt l m = true → lexLt lt m l = false
  | [], [] => by intro h; simp [lexLt] at h
  | [], _ :: _ => fun _ => rfl
  | _ :: _, [] => by intro h; simp [lexLt] at h
  | a :: as, b :: bs => by
    intro h
    cases hab : lt a b with
    | true =>
      simp [lexLt, hasym a b hab, hab]
    | false =>
      cases hba : lt b a with
      | true => rw [lexLt, hab, hba] at h; simp at h
      | false =>
        rw [lexLt, hab, hba] at h
        simp at h
        rw [lexLt, hba, hab]
        simp [lexLt_asymm lt hasym as bs h]

theorem lexLt_connex (lt : α → α → Bool)
    (hconn : ∀ a b, lt a b = false → lt b a = false → a = b) :
    ∀ l m, lexLt lt l m = false → lexLt lt m l = false → l = m
  | [], [] => fun _ _ => rfl
  | [], _ :: _ => by intro h _; simp [lexLt] at h
  | _ :: _, [] => by intro _ h; simp [lexLt] at h
  | a :: as, b :: bs => by
    intro h1 h2
    cases hab : lt a b with
    | true => rw [lexLt, hab] at h1; simp at h1
    | false =>
      cases hba : lt b a with
      | true => rw [lexLt, hba] at h2; simp at h2
      | false =>
        rw [lexLt, hab, hba] at h1
        rw [lexLt, hba, hab] at h2
        simp at h1 h2
        rw [hconn a b hab hba, lexLt_connex lt hconn as bs h1 h2]

theorem lexLt_crossing (lt : α → α → Bool)
    (hcross : ∀ c b a, lt c a = true → lt c b = true ∨ lt b a = true) :
    ∀ c b a, lexLt lt c a = true → lexLt lt c b = true ∨ lexLt lt b a = true
  | [], _, [] => by intro h; simp [lexLt] at h
  | [], [], _ :: _ => by intro _; right; rfl
  | [], _ :: _, _ :: _ => by intro _; left; rfl
  | _ :: _, _, [] => by intro h; simp [lexLt] at h
  | u :: us, [], v :: vs => by intro _; right; rfl
  | u :: us, w :: ws, v :: vs => by
    intro h
    cases huv : lt u v with
    | true =>
      rcases hcross u w v huv with h' | h'
      · left; simp [lexLt, h']
      · right; simp [lexLt, h']
    | false =>
      cases hvu : lt v u with
      | true => rw [lexLt, huv, hvu] at h; simp at h
      | false =>
        rw [lexLt, huv, hvu] at h; simp at h
        cases huw : lt u w with
        | true => left; simp [lexLt, huw]
        | false =>
          cases hwu : lt w u with
          | true =>
            rcases hcross w v u hwu with h' | h'
            · right; simp [lexLt, h']
            · rw [h'] at hvu; exact Bool.noConfusion hvu
          | false =>
            cases hwv : lt w v with
            | true => right; simp [lexLt, hwv]
            | false =>
              cases hvw : lt v w with
              | true =>
                rcases hcross v u w hvw with h' | h'
                · rw [h'] at hvu; exact Bool.noConfusion hvu
                · rw [h'] at huw; exact Bool.noConfusion huw
              | false =>
                rcases lexLt_crossing lt hcross us ws vs h with h' | h'
                · left; simp [lexLt, huw, hwu, h']
                · right; simp [lexLt, hwv, hvw, h']

theorem intLtB_irrefl (a : Int) : intLtB a a = false := by simp [intLtB]

theorem intLtB_asymm (a b : Int) (h : intLtB a b = true) : intLtB b a = false := by
  simp [intLtB] at *; omega

theorem intLtB_connex (a b : Int) (h1 : intLtB a b = false) (h2 : intLtB b a = false) :
    a = b := by
  simp [intLtB] at *; omega

theorem intLtB_crossing (c b a : Int) (h : intLtB c a = true) :
    intLtB c b = true ∨ intLtB b a = true := by
  simp [intLtB] at *; omega

theorem charLtB_irrefl (a : Char) : charLtB a a = false := by simp [charLtB]

theorem charLtB_asymm (a b : Char) (h : charLtB a b = true) : charLtB b a = false := by
  simp [charLtB] at *; omega

theorem charLtB_crossing (c b a : Char) (h : charLtB c a = true) :
    charLtB c b = true ∨ charLtB b a = true := by
  simp [charLtB] at *; omega

theorem tupLt_irrefl (l : List Int) : tupLt l l = false :=
  lexLt_irrefl intLtB intLtB_irrefl l

theorem tupLt_asymm (l m : List Int) (h : tupLt l m = true) : tupLt m l = false :=
  lexLt_asymm intLtB intLtB_asymm l m h

theorem tupLt_connex (l m : List Int) (h1 : tupLt l m = false) (h2 : tupLt m l = false) :
    l = m :=
  lexLt_connex intLtB intLtB_connex l m h1 h2

theorem tupLt_crossing (c b a : List Int) (h : tupLt c a = true) :
    tupLt c b = true ∨ tupLt b a = true :=
  lexLt_crossing intLtB intLtB_crossing c b a h

theorem strLtB_irrefl (s : String) : strLtB s s = false :=
  lexLt_irrefl charLtB charLtB_irrefl s.data

theorem strLtB_asymm (s t : String) (h : strLtB s t = true) : strLtB t s = false :=
  lexLt_asymm charLtB charLtB_asymm s.data t.data h

theorem strLtB_crossing (c b a : String) (h : strLtB c a = true) :
    strLtB c b = true ∨ strLtB b a = true :=
  lexLt_crossing charLtB charLtB_crossing c.data b.data a.data h

theorem pairLt_irrefl (a : List Int × String) : pairLt a a = false := by
  simp [pairLt, tupLt_irrefl, strLtB_irrefl]

theorem pairLt_asymm (a b : List Int × String) (h : pairLt a b = true) :
    pairLt b a = false := by
  simp only [pairLt, Bool.or_eq_true, Bool.and_eq_true, beq_iff_eq] at h
  rcases h with h | ⟨he, hs⟩
  · have hne : b.1 ≠ a.1 := by
      intro he; rw [he] at h; rw [tupLt_irrefl] at h; exact Bool.noConfusion h
    simp [pairLt, tupLt_asymm _ _ h, hne]
  · simp [pairLt, ← he, tupLt_irrefl, strLtB_asymm _ _ hs]

theorem pairLt_crossing (c b a : List Int × String) (h : pairLt c a = true) :
    pairLt c b = true ∨ pairLt b a = true := by
  simp only [pairLt, Bool.or_eq_true, Bool.and_eq_true, beq_iff_eq] at h ⊢
  rcases h with h | ⟨he, hs⟩
  · rcases tupLt_crossing c.1 b.1 a.1 h with h' | h'
    · exact Or.inl (Or.inl h')
    · exact Or.inr (Or.inl h')
  · cases hcb : tupLt c.1 b.1 with
    | true => exact Or.inl (Or.inl rfl)
    | false =>
      cases hbc : tupLt b.1 c.1 with
      | true => exact Or.inr (Or.inl (he ▸ hbc))
      | false =>
        have hb1 : b.1 = c.1 := tupLt_connex b.1 c.1 hbc hcb
        rcases strLtB_crossing c.2 b.2 a.2 hs with h' | h'
        · exact Or.inl (Or.inr ⟨hb1.symm, h'⟩)
        · exact Or.inr (Or.inr ⟨hb1.trans he, h'⟩)

theorem pairLe_refl (a : List Int × String) : pairLe a a = true := by
  simp [pairLe, pairLt_irrefl]

theorem pairLe_total (a b : List Int × String) : pairLe a b = true ∨ pairLe b a = true := by
  cases h : pairLt b a with
  | true => right; simp [pairLe, pairLt_asymm _ _ h]
  | false => left; simp [pairLe, h]

theorem pairLe_trans (a b c : List Int × String)
    (h1 : pairLe a b = true) (h2 : pairLe b c = true) : pairLe a c = true := by
  simp only [pairLe, Bool.not_eq_true'] at h1 h2 ⊢
  cases h : pairLt c a with
  | false => rfl
  | true =>
    rcases pairLt_crossing c b a h with h' | h'
    · rw [h'] at h2; exact h2
    · rw [h'] at h1; exact h1

/- ### Correctness of the stable insertion sort -/

theorem insertAsc_mem (le : α → α → Bool) (x : α) :
    ∀ (l : List α) (y : α), y ∈ insertAsc le x l ↔ y = x ∨ y ∈ l
  | [], y => by simp [insertAsc]
  | z :: zs, y => by
    by_cases h : le z x = true
    · simp only [insertAsc, if_pos h, List.mem_cons, insertAsc_mem le x zs y]
      tauto
    · simp only [insertAsc, if_neg h, List.mem_cons]

theorem chain'_insertAsc (le : α → α → Bool)
    (htot : ∀ a b, le a b = true ∨ le b a = true) (x : α) :
    ∀ l, List.Chain' (fun a b => le a b = true) l →
      List.Chain' (fun a b => le a b = true) (insertAsc le x l)
  | [], _ => List.chain'_singleton x
  | y :: ys, h => by
    by_cases hyx : le y x = true
    · rw [insertAsc, if_pos hyx]
      rw [List.chain'_cons']
      refine ⟨?_, chain'_insertAsc le htot x ys h.tail⟩
      intro z hz
      cases ys with
      | nil => simp [insertAsc] at hz; subst hz; exact hyx
      | cons w ws =>
        by_cases hwx : le w x = true
        · rw [insertAsc, if_pos hwx] at hz
          simp at hz
          subst hz
          exact (List.chain'_cons.mp h).1
        · rw [insertAsc, if_neg hwx] at hz
          simp at hz
          subst hz
          exact hyx
    · rw [insertAsc, if_neg hyx]
      rw [List.chain'_cons]
      refine ⟨?_, h⟩
      rcases htot x y with h' | h'
      · exact h'
      · exact absurd h' hyx

theorem sortAsc_go_chain (le : α → α → Bool)
    (htot : ∀ a b, le a b = true ∨ le b a = true) :
    ∀ (l : List α) (acc : List α), List.Chain' (fun a b => le a b = true) acc →
      List.Chain' (fun a b => le a b = true)
        (l.foldl (fun acc x => insertAsc le x acc) acc)
  | [], _, h => h
  | x :: xs, acc, h =>
    sortAsc_go_chain le htot xs (insertAsc le x acc) (chain'_insertAsc le htot x acc h)

theorem sortAsc_chain (le : α → α → Bool)
    (htot : ∀ a b, le a b = true ∨ le b a = true) (l : List α) :
    List.Chain' (fun a b => le a b = true) (sortAsc le l) :=
  sortAsc_go_chain le htot l [] List.chain'_nil

theorem sortAsc_go_mem (le : α → α → Bool) :
    ∀ (l acc : List α) (y : α),
      y ∈ l.foldl (fun acc x => insertAsc le x acc) acc ↔ y ∈ acc ∨ y ∈ l
  | [], acc, y => by simp
  | x :: xs, acc, y => by
    rw [List.foldl_cons, sortAsc_go_mem le xs (insertAsc le x acc) y, insertAsc_mem]
    simp
    tauto

theorem sortAsc_mem (le : α → α → Bool) (l : List α) (y : α) :
    y ∈ sortAsc le l ↔ y ∈ l := by
  rw [sortAsc, sortAsc_go_mem]
  simp

theorem chain'_getLast_ge (le : α → α → Bool)
    (htrans : ∀ a b c, le a b = true → le b c = true → le a c = true)
    (hrefl : ∀ a, le a a = true) :
    ∀ (l : List α) (m : α), List.Chain' (fun a b => le a b = true) l →
      l.getLast? = some m → ∀ x ∈ l, le x m = true
  | [], _, _, hl => by simp at hl
  | [a], m, _, hl => by
    simp at hl
    intro x hx
    simp at hx
    rw [hx, hl]
    exact hrefl m
  | a :: b :: t, m, hc, hl => by
    rw [List.getLast?_cons_cons] at hl
    have hab : le a b = true := (List.chain'_cons.mp hc).1
    have htail := (List.chain'_cons.mp hc).2
    have ih := chain'_getLast_ge le htrans hrefl (b :: t) m htail hl
    intro x hx
    rcases List.mem_cons.mp hx with hxa | hxm
    · rw [hxa]
      exact htrans a b m hab (ih b (List.mem_cons_self b t))
    · exact ih x hxm

theorem getLast?_mem_list {α : Type _} {l : List α} {a : α} (h : l.getLast? = some a) :
    a ∈ l := by
  obtain ⟨hne, rfl⟩ := List.mem_getLast?_eq_getLast (Option.mem_def.mpr h)
  exact List.getLast_mem hne

/-- Claim C3 (amended): `find_latest_stable_tag` keeps exactly the ref names
with the `refs/tags/v` prefix whose entire dotted suffix parses under Python
`int` semantics (a sign is accepted, so negative components are kept; any
non-numeric component excludes the tag silently), returns a kept tag whose
integer component sequence is maximal under component-wise comparison (not
string comparison), returns nothing when no tag survives, and in particular
returns `v1.10.0` among `v1.2.3` and `v1.10.0`. -/
theorem select_latest_correct (refNames : List String) :
    (find_latest_stable_tag refNames = none ↔ ∀ rn ∈ refNames, parseTag rn = none) ∧
    (∀ t, find_latest_stable_tag refNames = some t →
      t ∈ refNames ∧ ∃ pt, parseTag t = some pt ∧
        ∀ rn ∈ refNames, ∀ p, parseTag rn = some p → tupLt pt p = false) ∧
    find_latest_stable_tag ["refs/tags/v1.2.3", "refs/tags/v1.10.0"] =
      some "refs/tags/v1.10.0" := by
  refine ⟨?_, ?_, by decide⟩
  · simp only [find_latest_stable_tag, Option.map_eq_none']
    rw [List.getLast?_eq_none_iff]
    constructor
    · intro h rn hrn
      cases hp : parseTag rn with
      | none => rfl
      | some p =>
        have hv : (p, rn) ∈ refNames.filterMap
            (fun rn => (parseTag rn).map (fun p => (p, rn))) :=
          List.mem_filterMap.mpr ⟨rn, hrn, by rw [hp]; rfl⟩
        have hmem := (sortAsc_mem pairLe _ (p, rn)).mpr hv
        rw [h] at hmem
        simp at hmem
    · intro h
      have hnil : refNames.filterMap (fun rn => (parseTag rn).map (fun p => (p, rn))) = [] :=
        List.filterMap_eq_nil_iff.mpr (fun rn hrn => by rw [h rn hrn]; rfl)
      rw [hnil]
      rfl
  · intro t ht
    simp only [find_latest_stable_tag] at ht
    rw [Option.map_eq_some'] at ht
    obtain ⟨pr, hlast, hsnd⟩ := ht
    have hmem := getLast?_mem_list hlast
    rw [sortAsc_mem] at hmem
    obtain ⟨rn, hrn, heq⟩ := List.mem_filterMap.mp hmem
    rw [Option.map_eq_some'] at heq
    obtain ⟨p, hp, hpr⟩ := heq
    subst hpr
    have hrt : rn = t := hsnd
    subst hrt
    refine ⟨hrn, p, hp, ?_⟩
    intro rn' hrn' p' hp'
    have hv : (p', rn') ∈ refNames.filterMap
        (fun rn => (parseTag rn).map (fun p => (p, rn))) :=
      List.mem_filterMap.mpr ⟨rn', hrn', by rw [hp']; rfl⟩
    have hs := (sortAsc_mem pairLe _ (p', rn')).mpr hv
    have hle : pairLe (p', rn') (p, rn) = true :=
      chain'_getLast_ge pairLe pairLe_trans pairLe_refl _ _
        (sortAsc_chain pairLe pairLe_total _) hlast (p', rn') hs
    simp only [pairLe, Bool.not_eq_true'] at hle
    simp only [pairLt, Bool.or_eq_false_iff] at hle
    exact hle.1

/-- Witness for the amended C3 theorem: instantiating it at the two-tag list
shows `v1.10.0` is kept, is a member, and is not exceeded by `v1.2.3`. -/
theorem select_latest_correct_witness :
    "refs/tags/v1.10.0" ∈ ["refs/tags/v1.2.3", "refs/tags/v1.10.0"] ∧
    ∃ pt, parseTag "refs/tags/v1.10.0" = some pt ∧
      ∀ rn ∈ ["refs/tags/v1.2.3", "refs/tags/v1.10.0"], ∀ p, parseTag rn = some p →
        tupLt pt p = false :=
  (select_latest_correct ["refs/tags/v1.2.3", "refs/tags/v1.10.0"]).2.1
    "refs/tags/v1.10.0" (by decide)

/-- Claim C3 counterexample: on input containing only the tag `v-1`, the
source selector keeps and returns it (Python `int("-1")` parses to the
negative integer -1), whereas the claim's filter — "entire dotted suffix
parses as non-negative integers" — keeps nothing and would return nothing. -/
theorem select_latest_counterexample :
    find_latest_stable_tag ["refs/tags/v-1"] = some "refs/tags/v-1" ∧
    select_latest_nonneg ["refs/tags/v-1"] = none ∧
    parseTag "refs/tags/v-1" = some [-1] := by decide

/- ### Reference-table lemmas -/

theorem stringData_append (a b : String) : (a ++ b).data = a.data ++ b.data := rfl

theorem string_append_left_inj (p a b : String) (h : p ++ a = p ++ b) : a = b := by
  have hd : p.data ++ a.data = p.data ++ b.data := by
    rw [← stringData_append, ← stringData_append, h]
  have : a.data = b.data := List.append_cancel_left hd
  cases a; cases b; simp at this; rw [this]

theorem find?_filter_ne :
    ∀ (l : List (String × Nat)) (n m : String), m ≠ n →
      (l.filter (fun p => !(p.1 == n))).find? (fun p => p.1 == m) =
        l.find? (fun p => p.1 == m)
  | [], _, _, _ => rfl
  | a :: as, n, m, h => by
    by_cases ha : a.1 = n
    · have h1 : (a.1 == n) = true := beq_iff_eq.mpr ha
      have h2 : (a.1 == m) = false :=
        beq_eq_false_iff_ne.mpr (by rw [ha]; exact fun he => h he.symm)
      simp only [List.filter_cons, h1, Bool.not_true, List.find?_cons, h2]
      simp only [Bool.false_eq_true, if_false]
      exact find?_filter_ne as n m h
    · have h1 : (a.1 == n) = false := beq_eq_false_iff_ne.mpr ha
      by_cases hm : a.1 = m
      · have h2 : (a.1 == m) = true := beq_iff_eq.mpr hm
        simp [List.filter_cons, h1, List.find?_cons, h2]
      · have h2 : (a.1 == m) = false := beq_eq_false_iff_ne.mpr hm
        simp only [List.filter_cons, h1, Bool.not_false, if_true, List.find?_cons, h2]
        exact find?_filter_ne as n m h

theorem lookupRef_setRef_self (s : Repo) (n : String) (i : Nat) :
    lookupRef (setRef s n i) n = some i := by
  simp [lookupRef, setRef, setRefList, List.find?_cons]

theorem lookupRef_setRef_ne (s : Repo) (n m : String) (i : Nat) (h : m ≠ n) :
    lookupRef (setRef s n i) m = lookupRef s m := by
  have h2 : (n == m) = false := beq_eq_false_iff_ne.mpr (fun he => h he.symm)
  simp only [lookupRef, setRef, setRefList, List.find?_cons, h2]
  rw [find?_filter_ne s.refs n m h]

theorem headTarget_congr (s t : Repo) (h1 : s.head = t.head) (h2 : s.refs = t.refs) :
    headTarget s = headTarget t := by
  unfold headTarget lookupRef
  rw [h1, h2]

/- ### Claim theorems about `pull` -/

/-- Claim C6: when the merge analysis reports up-to-date, `pull` succeeds and
leaves HEAD, every reference, the index and the working tree unchanged; only
the "Already up to date." line is printed. -/
theorem pull_up_to_date (o : PullOracle) (s : Repo) (rid : Nat)
    (hr : lookupRef s "refs/remotes/origin/master" = some rid)
    (hu : o.upToDate = true) :
    ∃ s', pull o s "origin" "master" = .ok s' ∧
      s'.refs = s.refs ∧ s'.head = s.head ∧ s'.indexMem = s.indexMem ∧
      s'.indexDisk = s.indexDisk ∧ s'.workTree = s.workTree ∧
      s'.created = s.created ∧ s'.nextId = s.nextId ∧ s'.merging = s.merging ∧
      s'.output = s.output ++ ["Already up to date."] := by
  have hr' : lookupRef s ("refs/remotes/" ++ "origin" ++ "/" ++ "master") = some rid := hr
  refine ⟨emit s "Already up to date.", ?_, rfl, rfl, rfl, rfl, rfl, rfl, rfl, rfl, rfl⟩
  simp only [pull, hr', hu, if_true]

/- ### Frame lemmas for the state operations (all definitional) -/

@[simp] theorem emit_refs (s : Repo) (l : String) : (emit s l).refs = s.refs := rfl

@[simp] theorem emit_head (s : Repo) (l : String) : (emit s l).head = s.head := rfl

@[simp] theorem emit_treeOf (s : Repo) (l : String) : (emit s l).treeOf = s.treeOf := rfl

@[simp] theorem emit_created (s : Repo) (l : String) : (emit s l).created = s.created := rfl

@[simp] theorem emit_nextId (s : Repo) (l : String) : (emit s l).nextId = s.nextId := rfl

@[simp] theorem emit_indexMem (s : Repo) (l : String) : (emit s l).indexMem = s.indexMem := rfl

@[simp] theorem emit_indexDisk (s : Repo) (l : String) : (emit s l).indexDisk = s.indexDisk := rfl

@[simp] theorem emit_workTree (s : Repo) (l : String) : (emit s l).workTree = s.workTree := rfl

@[simp] theorem emit_merging (s : Repo) (l : String) : (emit s l).merging = s.merging := rfl

@[simp] theorem emit_stashes (s : Repo) (l : String) : (emit s l).stashes = s.stashes := rfl

@[simp] theorem emit_remotes (s : Repo) (l : String) : (emit s l).remotes = s.remotes := rfl

@[simp] theorem emit_defaultSig (s : Repo) (l : String) : (emit s l).defaultSig = s.defaultSig := rfl

@[simp] theorem emit_output (s : Repo) (l : String) : (emit s l).output = s.output ++ [l] := rfl

@[simp] theorem setRef_refs (s : Repo) (n : String) (i : Nat) : (setRef s n i).refs = setRefList s.refs n i := rfl

@[simp] theorem setRef_head (s : Repo) (n : String) (i : Nat) : (setRef s n i).head = s.head := rfl

@[simp] theorem setRef_treeOf (s : Repo) (n : String) (i : Nat) : (setRef s n i).treeOf = s.treeOf := rfl

@[simp] theorem setRef_created (s : Repo) (n : String) (i : Nat) : (setRef s n i).created = s.created := rfl

@[simp] theorem setRef_nextId (s : Repo) (n : String) (i : Nat) : (setRef s n i).nextId = s.nextId := rfl

@[simp] theorem setRef_indexMem (s : Repo) (n : String) (i : Nat) : (setRef s n i).indexMem = s.indexMem := rfl

@[simp] theorem setRef_indexDisk (s : Repo) (n : String) (i : Nat) : (setRef s n i).indexDisk = s.indexDisk := rfl

@[simp] theorem setRef_workTree (s : Repo) (n : String) (i : Nat) : (setRef s n i).workTree = s.workTree := rfl

@[simp] theorem setRef_merging (s : Repo) (n : String) (i : Nat) : (setRef s n i).merging = s.merging := rfl

@[simp] theorem setRef_stashes (s : Repo) (n : String) (i : Nat) : (setRef s n i).stashes = s.stashes := rfl

@[simp] theorem setRef_remotes (s : Repo) (n : String) (i : Nat) : (setRef s n i).remotes = s.remotes := rfl

@[simp] theorem setRef_defaultSig (s : Repo) (n : String) (i : Nat) : (setRef s n i).defaultSig = s.defaultSig := rfl

@[simp] theorem setRef_output (s : Repo) (n : String) (i : Nat) : (setRef s n i).output = s.output := rfl

@[simp] theorem checkoutTree_refs (s : Repo) (i : Nat) : (checkoutTree s i).refs = s.refs := rfl

@[simp] theorem checkoutTree_head (s : Repo) (i : Nat) : (checkoutTree s i).head = s.head := rfl

@[simp] theorem checkoutTree_treeOf (s : Repo) (i : Nat) : (checkoutTree s i).treeOf = s.treeOf := rfl

@[simp] theorem checkoutTree_created (s : Repo) (i : Nat) : (checkoutTree s i).created = s.created := rfl

@[simp] theorem checkoutTree_nextId (s : Repo) (i : Nat) : (checkoutTree s i).nextId = s.nextId := rfl

@[simp] theorem checkoutTree_indexMem (s : Repo) (i : Nat) : (checkoutTree s i).indexMem = s.treeOf i := rfl

@[simp] theorem checkoutTree_indexDisk (s : Repo) (i : Nat) : (checkoutTree s i).indexDisk = s.treeOf i := rfl

@[simp] theorem checkoutTree_workTree (s : Repo) (i : Nat) : (checkoutTree s i).workTree = s.treeOf i := rfl

@[simp] theorem checkoutTree_merging (s : Repo) (i : Nat) : (checkoutTree s i).merging = s.merging := rfl

@[simp] theorem checkoutTree_stashes (s : Repo) (i : Nat) : (checkoutTree s i).stashes = s.stashes := rfl

@[simp] theorem checkoutTree_remotes (s : Repo) (i : Nat) : (checkoutTree s i).remotes = s.remotes := rfl

@[simp] theorem checkoutTree_defaultSig (s : Repo) (i : Nat) : (checkoutTree s i).defaultSig = s.defaultSig := rfl

@[simp] theorem checkoutTree_output (s : Repo) (i : Nat) : (checkoutTree s i).output = s.output := rfl

@[simp] theorem setHeadBranch_refs (s : Repo) (b : String) : (setHeadBranch s b).refs = s.refs := rfl

@[simp] theorem setHeadBranch_head (s : Repo) (b : String) : (setHeadBranch s b).head = Head.branch b := rfl

@[simp] theorem setHeadBranch_treeOf (s : Repo) (b : String) : (setHeadBranch s b).treeOf = s.treeOf := rfl

@[simp] theorem setHeadBranch_created (s : Repo) (b : String) : (setHeadBranch s b).created = s.created := rfl

@[simp] theorem setHeadBranch_nextId (s : Repo) (b : String) : (setHeadBranch s b).nextId = s.nextId := rfl

@[simp] theorem setHeadBranch_indexMem (s : Repo) (b : String) : (setHeadBranch s b).indexMem = s.indexMem := rfl

@[simp] theorem setHeadBranch_indexDisk (s : Repo) (b : String) : (setHeadBranch s b).indexDisk = s.indexDisk := rfl

@[simp] theorem setHeadBranch_workTree (s : Repo) (b : String) : (setHeadBranch s b).workTree = s.workTree := rfl

@[simp] theorem setHeadBranch_merging (s : Repo) (b : String) : (setHeadBranch s b).merging = s.merging := rfl

@[simp] theorem setHeadBranch_stashes (s : Repo) (b : String) : (setHeadBranch s b).stashes = s.stashes := rfl

@[simp] theorem setHeadBranch_remotes (s : Repo) (b : String) : (setHeadBranch s b).remotes = s.remotes := rfl

@[simp] theorem setHeadBranch_defaultSig (s : Repo) (b : String) : (setHeadBranch s b).defaultSig = s.defaultSig := rfl

@[simp] theorem setHeadBranch_output (s : Repo) (b : String) : (setHeadBranch s b).output = s.output := rfl

@[simp] theorem detachHead_refs (s : Repo) (i : Nat) : (detachHead s i).refs = s.refs := rfl

@[simp] theorem detachHead_head (s : Repo) (i : Nat) : (detachHead s i).head = Head.detached i := rfl

@[simp] theorem detachHead_treeOf (s : Repo) (i : Nat) : (detachHead s i).treeOf = s.treeOf := rfl

@[simp] theorem detachHead_created (s : Repo) (i : Nat) : (detachHead s i).created = s.created := rfl

@[simp] theorem detachHead_nextId (s : Repo) (i : Nat) : (detachHead s i).nextId = s.nextId := rfl

@[simp] theorem detachHead_indexMem (s : Repo) (i : Nat) : (detachHead s i).indexMem = s.indexMem := rfl

@[simp] theorem detachHead_indexDisk (s : Repo) (i : Nat) : (detachHead s i).indexDisk = s.indexDisk := rfl

@[simp] theorem detachHead_workTree (s : Repo) (i : Nat) : (detachHead s i).workTree = s.workTree := rfl

@[simp] theorem detachHead_merging (s : Repo) (i : Nat) : (detachHead s i).merging = s.merging := rfl

@[simp] theorem detachHead_stashes (s : Repo) (i : Nat) : (detachHead s i).stashes = s.stashes := rfl

@[simp] theorem detachHead_remotes (s : Repo) (i : Nat) : (detachHead s i).remotes = s.remotes := rfl

@[simp] theorem detachHead_defaultSig (s : Repo) (i : Nat) : (detachHead s i).defaultSig = s.defaultSig := rfl

@[simp] theorem detachHead_output (s : Repo) (i : Nat) : (detachHead s i).output = s.output := rfl

@[simp] theorem mergeWrite_refs (s : Repo) (t : Nat) : (mergeWrite s t).refs = s.refs := rfl

@[simp] theorem mergeWrite_head (s : Repo) (t : Nat) : (mergeWrite s t).head = s.head := rfl

@[simp] theorem mergeWrite_treeOf (s : Repo) (t : Nat) : (mergeWrite s t).treeOf = s.treeOf := rfl

@[simp] theorem mergeWrite_created (s : Repo) (t : Nat) : (mergeWrite s t).created = s.created := rfl

@[simp] theorem mergeWrite_nextId (s : Repo) (t : Nat) : (mergeWrite s t).nextId = s.nextId := rfl

@[simp] theorem mergeWrite_indexMem (s : Repo) (t : Nat) : (mergeWrite s t).indexMem = t := rfl

@[simp] theorem mergeWrite_indexDisk (s : Repo) (t : Nat) : (mergeWrite s t).indexDisk = t := rfl

@[simp] theorem mergeWrite_workTree (s : Repo) (t : Nat) : (mergeWrite s t).workTree = t := rfl

@[simp] theorem mergeWrite_merging (s : Repo) (t : Nat) : (mergeWrite s t).merging = true := rfl

@[simp] theorem mergeWrite_stashes (s : Repo) (t : Nat) : (mergeWrite s t).stashes = s.stashes := rfl

@[simp] theorem mergeWrite_remotes (s : Repo) (t : Nat) : (mergeWrite s t).remotes = s.remotes := rfl

@[simp] theorem mergeWrite_defaultSig (s : Repo) (t : Nat) : (mergeWrite s t).defaultSig = s.defaultSig := rfl

@[simp] theorem mergeWrite_output (s : Repo) (t : Nat) : (mergeWrite s t).output = s.output := rfl

@[simp] theorem stateCleanup_refs (s : Repo) : (stateCleanup s).refs = s.refs := rfl

@[simp] theorem stateCleanup_head (s : Repo) : (stateCleanup s).head = s.head := rfl

@[simp] theorem stateCleanup_treeOf (s : Repo) : (stateCleanup s).treeOf = s.treeOf := rfl

@[simp] theorem stateCleanup_created (s : Repo) : (stateCleanup s).created = s.created := rfl

@[simp] theorem stateCleanup_nextId (s : Repo) : (stateCleanup s).nextId = s.nextId := rfl

@[simp] theorem stateCleanup_indexMem (s : Repo) : (stateCleanup s).indexMem = s.indexMem := rfl

@[simp] theorem stateCleanup_indexDisk (s : Repo) : (stateCleanup s).indexDisk = s.indexDisk := rfl

@[simp] theorem stateCleanup_workTree (s : Repo) : (stateCleanup s).workTree = s.workTree := rfl

@[simp] theorem stateCleanup_merging (s : Repo) : (stateCleanup s).merging = false := rfl

@[simp] theorem stateCleanup_stashes (s : Repo) : (stateCleanup s).stashes = s.stashes := rfl

@[simp] theorem stateCleanup_remotes (s : Repo) : (stateCleanup s).remotes = s.remotes := rfl

@[simp] theorem stateCleanup_defaultSig (s : Repo) : (stateCleanup s).defaultSig = s.defaultSig := rfl

@[simp] theorem stateCleanup_output (s : Repo) : (stateCleanup s).output = s.output := rfl

@[simp] theorem indexReadTree_refs (s : Repo) (t : Nat) : (indexReadTree s t).refs = s.refs := rfl

@[simp] theorem indexReadTree_head (s : Repo) (t : Nat) : (indexReadTree s t).head = s.head := rfl

@[simp] theorem indexReadTree_treeOf (s : Repo) (t : Nat) : (indexReadTree s t).treeOf = s.treeOf := rfl

@[simp] theorem indexReadTree_created (s : Repo) (t : Nat) : (indexReadTree s t).created = s.created := rfl

@[simp] theorem indexReadTree_nextId (s : Repo) (t : Nat) : (indexReadTree s t).nextId = s.nextId := rfl

@[simp] theorem indexReadTree_indexMem (s : Repo) (t : Nat) : (indexReadTree s t).indexMem = t := rfl

@[simp] theorem indexReadTree_indexDisk (s : Repo) (t : Nat) : (indexReadTree s t).indexDisk = s.indexDisk := rfl

@[simp] theorem indexReadTree_workTree (s : Repo) (t : Nat) : (indexReadTree s t).workTree = s.workTree := rfl

@[simp] theorem indexReadTree_merging (s : Repo) (t : Nat) : (indexReadTree s t).merging = s.merging := rfl

@[simp] theorem indexReadTree_stashes (s : Repo) (t : Nat) : (indexReadTree s t).stashes = s.stashes := rfl

@[simp] theorem indexReadTree_remotes (s : Repo) (t : Nat) : (indexReadTree s t).remotes = s.remotes := rfl

@[simp] theorem indexReadTree_defaultSig (s : Repo) (t : Nat) : (indexReadTree s t).defaultSig = s.defaultSig := rfl

@[simp] theorem indexReadTree_output (s : Repo) (t : Nat) : (indexReadTree s t).output = s.output := rfl

@[simp] theorem indexWrite_refs (s : Repo) : (indexWrite s).refs = s.refs := rfl

@[simp] theorem indexWrite_head (s : Repo) : (indexWrite s).head = s.head := rfl

@[simp] theorem indexWrite_treeOf (s : Repo) : (indexWrite s).treeOf = s.treeOf := rfl

@[simp] theorem indexWrite_created (s : Repo) : (indexWrite s).created = s.created := rfl

@[simp] theorem indexWrite_nextId (s : Repo) : (indexWrite s).nextId = s.nextId := rfl

@[simp] theorem indexWrite_indexMem (s : Repo) : (indexWrite s).indexMem = s.indexMem := rfl

@[simp] theorem indexWrite_indexDisk (s : Repo) : (indexWrite s).indexDisk = s.indexMem := rfl

@[simp] theorem indexWrite_workTree (s : Repo) : (indexWrite s).workTree = s.workTree := rfl

@[simp] theorem indexWrite_merging (s : Repo) : (indexWrite s).merging = s.merging := rfl

@[simp] theorem indexWrite_stashes (s : Repo) : (indexWrite s).stashes = s.stashes := rfl

@[simp] theorem indexWrite_remotes (s : Repo) : (indexWrite s).remotes = s.remotes := rfl

@[simp] theorem indexWrite_defaultSig (s : Repo) : (indexWrite s).defaultSig = s.defaultSig := rfl

@[simp] theorem indexWrite_output (s : Repo) : (indexWrite s).output = s.output := rfl

@[simp] theorem addCommit_refs (s : Repo) (c : Commit) : (addCommit s c).refs = s.refs := rfl

@[simp] theorem addCommit_head (s : Repo) (c : Commit) : (addCommit s c).head = s.head := rfl

@[simp] theorem addCommit_created (s : Repo) (c : Commit) : (addCommit s c).created = s.created ++ [(s.nextId, c)] := rfl

@[simp] theorem addCommit_nextId (s : Repo) (c : Commit) : (addCommit s c).nextId = s.nextId + 1 := rfl

@[simp] theorem addCommit_indexMem (s : Repo) (c : Commit) : (addCommit s c).indexMem = s.indexMem := rfl

@[simp] theorem addCommit_indexDisk (s : Repo) (c : Commit) : (addCommit s c).indexDisk = s.indexDisk := rfl

@[simp] theorem addCommit_workTree (s : Repo) (c : Commit) : (addCommit s c).workTree = s.workTree := rfl

@[simp] theorem addCommit_merging (s : Repo) (c : Commit) : (addCommit s c).merging = s.merging := rfl

@[simp] theorem addCommit_stashes (s : Repo) (c : Commit) : (addCommit s c).stashes = s.stashes := rfl

@[simp] theorem addCommit_remotes (s : Repo) (c : Commit) : (addCommit s c).remotes = s.remotes := rfl

@[simp] theorem addCommit_defaultSig (s : Repo) (c : Commit) : (addCommit s c).defaultSig = s.defaultSig := rfl

@[simp] theorem addCommit_output (s : Repo) (c : Commit) : (addCommit s c).output = s.output := rfl

@[simp] theorem doStash_refs (s : Repo) (h : Nat) : (doStash s h).refs = s.refs := rfl

@[simp] theorem doStash_head (s : Repo) (h : Nat) : (doStash s h).head = s.head := rfl

@[simp] theorem doStash_treeOf (s : Repo) (h : Nat) : (doStash s h).treeOf = s.treeOf := rfl

@[simp] theorem doStash_created (s : Repo) (h : Nat) : (doStash s h).created = s.created := rfl

@[simp] theorem doStash_nextId (s : Repo) (h : Nat) : (doStash s h).nextId = s.nextId := rfl

@[simp] theorem doStash_indexMem (s : Repo) (h : Nat) : (doStash s h).indexMem = s.treeOf h := rfl

@[simp] theorem doStash_indexDisk (s : Repo) (h : Nat) : (doStash s h).indexDisk = s.treeOf h := rfl

@[simp] theorem doStash_workTree (s : Repo) (h : Nat) : (doStash s h).workTree = s.treeOf h := rfl

@[simp] theorem doStash_merging (s : Repo) (h : Nat) : (doStash s h).merging = s.merging := rfl

@[simp] theorem doStash_stashes (s : Repo) (h : Nat) : (doStash s h).stashes = s.stashes ++ [(s.indexDisk, s.workTree)] := rfl

@[simp] theorem doStash_remotes (s : Repo) (h : Nat) : (doStash s h).remotes = s.remotes := rfl

@[simp] theorem doStash_defaultSig (s : Repo) (h : Nat) : (doStash s h).defaultSig = s.defaultSig := rfl

@[simp] theorem doStash_output (s : Repo) (h : Nat) : (doStash s h).output = s.output := rfl

@[simp] theorem lookupRef_emit (s : Repo) (l : String) (nm : String) : lookupRef (emit s l) nm = lookupRef s nm := rfl

@[simp] theorem lookupRef_checkoutTree (s : Repo) (i : Nat) (nm : String) : lookupRef (checkoutTree s i) nm = lookupRef s nm := rfl

@[simp] theorem lookupRef_setHeadBranch (s : Repo) (b : String) (nm : String) : lookupRef (setHeadBranch s b) nm = lookupRef s nm := rfl

@[simp] theorem lookupRef_detachHead (s : Repo) (i : Nat) (nm : String) : lookupRef (detachHead s i) nm = lookupRef s nm := rfl

@[simp] theorem lookupRef_mergeWrite (s : Repo) (t : Nat) (nm : String) : lookupRef (mergeWrite s t) nm = lookupRef s nm := rfl

@[simp] theorem lookupRef_stateCleanup (s : Repo) (nm : String) : lookupRef (stateCleanup s) nm = lookupRef s nm := rfl

@[simp] theorem lookupRef_indexReadTree (s : Repo) (t : Nat) (nm : String) : lookupRef (indexReadTree s t) nm = lookupRef s nm := rfl

@[simp] theorem lookupRef_indexWrite (s : Repo) (nm : String) : lookupRef (indexWrite s) nm = lookupRef s nm := rfl

@[simp] theorem lookupRef_addCommit (s : Repo) (c : Commit) (nm : String) : lookupRef (addCommit s c) nm = lookupRef s nm := rfl

@[simp] theorem lookupRef_doStash (s : Repo) (h : Nat) (nm : String) : lookupRef (doStash s h) nm = lookupRef s nm := rfl

@[simp] theorem headTarget_emit (s : Repo) (l : String) : headTarget (emit s l) = headTarget s := rfl

@[simp] theorem headTarget_checkoutTree (s : Repo) (i : Nat) : headTarget (checkoutTree s i) = headTarget s := rfl

@[simp] theorem headTarget_mergeWrite (s : Repo) (t : Nat) : headTarget (mergeWrite s t) = headTarget s := rfl

@[simp] theorem headTarget_stateCleanup (s : Repo) : headTarget (stateCleanup s) = headTarget s := rfl

@[simp] theorem headTarget_indexReadTree (s : Repo) (t : Nat) : headTarget (indexReadTree s t) = headTarget s := rfl

@[simp] theorem headTarget_indexWrite (s : Repo) : headTarget (indexWrite s) = headTarget s := rfl

@[simp] theorem headTarget_addCommit (s : Repo) (c : Commit) : headTarget (addCommit s c) = headTarget s := rfl

@[simp] theorem headTarget_doStash (s : Repo) (h : Nat) : headTarget (doStash s h) = headTarget s := rfl

@[simp] theorem headTarget_detachHead (s : Repo) (i : Nat) : headTarget (detachHead s i) = some i := rfl

@[simp] theorem headTarget_setHeadBranch (s : Repo) (b : String) :
    headTarget (setHeadBranch s b) = lookupRef s ("refs/heads/" ++ b) := rfl

@[simp] theorem addCommit_treeOf (s : Repo) (c : Commit) :
    (addCommit s c).treeOf = fun i => if i = s.nextId then c.tree else s.treeOf i := rfl

theorem heads_literal : ("refs/heads/" ++ "master" : String) = "refs/heads/master" := rfl

/-- Claim C4: when the analysis reports fast-forward, `pull` checks out the
remote target's tree, repoints `refs/heads/master` (creating it if missing)
and HEAD to the remote target commit, creates no new commit object, and
succeeds. -/
theorem pull_fastforward (o : PullOracle) (s : Repo) (rid h0 : Nat)
    (hr : lookupRef s "refs/remotes/origin/master" = some rid)
    (hu : o.upToDate = false) (hf : o.fastforward = true)
    (hh : headTarget s = some h0) :
    ∃ s', pull o s "origin" "master" = .ok s' ∧
      lookupRef s' "refs/heads/master" = some rid ∧
      headTarget s' = some rid ∧
      s'.workTree = s.treeOf rid ∧ s'.indexMem = s.treeOf rid ∧
      s'.created = s.created ∧ s'.nextId = s.nextId := by
  have hr' : lookupRef s ("refs/remotes/" ++ "origin" ++ "/" ++ "master") = some rid := hr
  cases hhead : s.head with
  | detached i =>
    have hp : pull o s "origin" "master" =
        .ok (detachHead (setRef (checkoutTree s rid) ("refs/heads/" ++ "master") rid) rid) := by
      simp only [pull, hr', hu, hf, Bool.false_eq_true, if_false, if_true,
        setRef_head, checkoutTree_head, hhead]
    refine ⟨_, hp, ?_, ?_, rfl, rfl, rfl, rfl⟩
    · rw [lookupRef_detachHead, ← heads_literal]
      exact lookupRef_setRef_self _ _ _
    · exact headTarget_detachHead _ _
  | branch b =>
    simp only [headTarget, hhead] at hh
    by_cases hbm : b = "master"
    · subst hbm
      have hp : pull o s "origin" "master" =
          .ok (setRef (setRef (checkoutTree s rid) ("refs/heads/" ++ "master") rid)
            ("refs/heads/" ++ "master") rid) := by
        simp only [pull, hr', hu, hf, Bool.false_eq_true, if_false, if_true,
          setRef_head, checkoutTree_head, hhead, lookupRef_setRef_self]
      refine ⟨_, hp, ?_, ?_, rfl, rfl, rfl, rfl⟩
      · rw [← heads_literal]
        exact lookupRef_setRef_self _ _ _
      · simp only [headTarget, setRef_head, checkoutTree_head, hhead]
        exact lookupRef_setRef_self _ _ _
    · have hbne : ("refs/heads/" ++ b : String) ≠ ("refs/heads/" ++ "master" : String) :=
        fun he => hbm (string_append_left_inj _ _ _ he)
      have hlb : lookupRef (setRef (checkoutTree s rid) ("refs/heads/" ++ "master") rid)
          ("refs/heads/" ++ b) = some h0 := by
        rw [lookupRef_setRef_ne _ _ _ _ hbne, lookupRef_checkoutTree]
        exact hh
      have hp : pull o s "origin" "master" =
          .ok (setRef (setRef (checkoutTree s rid) ("refs/heads/" ++ "master") rid)
            ("refs/heads/" ++ b) rid) := by
        simp only [pull, hr', hu, hf, Bool.false_eq_true, if_false, if_true,
          setRef_head, checkoutTree_head, hhead, hlb]
      refine ⟨_, hp, ?_, ?_, rfl, rfl, rfl, rfl⟩
      · rw [← heads_literal,
          lookupRef_setRef_ne _ _ _ _ (fun he => hbm (string_append_left_inj _ _ _ he).symm)]
        exact lookupRef_setRef_self _ _ _
      · simp only [headTarget, setRef_head, checkoutTree_head, hhead]
        exact lookupRef_setRef_self _ _ _

theorem foldl_emit_eq (f : Conflict → String) :
    ∀ (cs : List Conflict) (s : Repo),
      cs.foldl (fun acc c => emit acc (f c)) s =
        { s with output := s.output ++ cs.map (fun c => f c) }
  | [], s => by simp
  | c :: cs, s => by
    rw [List.foldl_cons, foldl_emit_eq f cs (emit s (f c))]
    simp [emit]

/-- Claim C1: when the three-way merge produces conflicts, `pull` prints one
"Conflict in: <path>" line per conflict entry, creates no commit, leaves the
merge-in-progress state raised, and aborts with an error. -/
theorem pull_conflicts (o : PullOracle) (s : Repo) (rid : Nat) (cs : List Conflict)
    (hr : lookupRef s "refs/remotes/origin/master" = some rid)
    (hu : o.upToDate = false) (hf : o.fastforward = false) (hn : o.normal = true)
    (hc : o.conflicts = some cs) :
    ∃ s', pull o s "origin" "master" = .err "Merge conflicts detected. Aborting." s' ∧
      (∀ c ∈ cs, ("Conflict in: " ++ conflictPath c) ∈ s'.output) ∧
      s'.created = s.created ∧ s'.nextId = s.nextId ∧ s'.merging = true ∧
      s'.refs = s.refs ∧ s'.head = s.head ∧
      s'.output = s.output ++ cs.map (fun c => "Conflict in: " ++ conflictPath c) := by
  have hr' : lookupRef s ("refs/remotes/" ++ "origin" ++ "/" ++ "master") = some rid := hr
  have hp : pull o s "origin" "master" = .err "Merge conflicts detected. Aborting."
      (cs.foldl (fun acc c => emit acc ("Conflict in: " ++ conflictPath c))
        (mergeWrite s o.mergedTree)) := by
    simp only [pull, hr', hu, hf, hn, Bool.false_eq_true, if_false, if_true, hc]
  rw [foldl_emit_eq (fun c => "Conflict in: " ++ conflictPath c)] at hp
  refine ⟨_, hp, ?_, rfl, rfl, rfl, rfl, rfl, rfl⟩
  intro c hcm
  exact List.mem_append.mpr (Or.inr (List.mem_map.mpr ⟨c, hcm, rfl⟩))

/-- Claim C5: a conflict-free three-way merge creates exactly one new commit,
whose two parents are the pre-merge local HEAD commit and the remote target
commit in that order and whose message is "Merge!", and then clears the
merge-in-progress state. -/
theorem pull_merge_commit (o : PullOracle) (s : Repo) (rid h0 : Nat)
    (hr : lookupRef s "refs/remotes/origin/master" = some rid)
    (hu : o.upToDate = false) (hf : o.fastforward = false) (hn : o.normal = true)
    (hc : o.conflicts = none) (hh : headTarget s = some h0) :
    ∃ s', pull o s "origin" "master" = .ok s' ∧
      s'.created = s.created ++ [(s.nextId,
        { parents := [h0, rid], message := "Merge!",
          tree := o.mergedTree, author := s.defaultSig })] ∧
      s'.nextId = s.nextId + 1 ∧ s'.merging = false := by
  have hr' : lookupRef s ("refs/remotes/" ++ "origin" ++ "/" ++ "master") = some rid := hr
  cases hhead : s.head with
  | detached i =>
    have hp : pull o s "origin" "master" =
        .ok (stateCleanup (detachHead (addCommit (mergeWrite s o.mergedTree)
          { parents := [h0, rid], message := "Merge!", tree := o.mergedTree,
            author := s.defaultSig }) s.nextId)) := by
      simp only [pull, hr', hu, hf, hn, Bool.false_eq_true, if_false, if_true, hc,
        headTarget_mergeWrite, hh, mergeWrite_indexMem, mergeWrite_defaultSig,
        mergeWrite_nextId, addCommit_head, mergeWrite_head, hhead]
    exact ⟨_, hp, rfl, rfl, rfl⟩
  | branch b =>
    have hp : pull o s "origin" "master" =
        .ok (stateCleanup (setRef (addCommit (mergeWrite s o.mergedTree)
          { parents := [h0, rid], message := "Merge!", tree := o.mergedTree,
            author := s.defaultSig }) ("refs/heads/" ++ b) s.nextId)) := by
      simp only [pull, hr', hu, hf, hn, Bool.false_eq_true, if_false, if_true, hc,
        headTarget_mergeWrite, hh, mergeWrite_indexMem, mergeWrite_defaultSig,
        mergeWrite_nextId, addCommit_head, mergeWrite_head, hhead]
    exact ⟨_, hp, rfl, rfl, rfl⟩

/-- Claim C7: the snapshot block treats a clean tree ("nothing to stash",
the `KeyError` arm) as success; any other first failure triggers the repair
— both index views are reset to exactly the current HEAD's tree and
persisted — followed by exactly one retry (the second `repo.stash` call), in
which "nothing to stash" is success with no snapshot, stash success records
the snapshot, and any other exception aborts the run. -/
theorem snapshot_retry (o : Oracle) (s : Repo) (h0 : Nat)
    (hh : headTarget s = some h0) :
    (o.stash1 = .keyError →
      stepStash o s =
        .ok (emit (emit s "Stashing current changes…") "Nothing to stash.")) ∧
    (o.stash1 = .other →
      ((stepStash o s).state.indexMem = s.treeOf h0 ∧
        (stepStash o s).state.indexDisk = s.treeOf h0) ∧
      (o.stash2 = .keyError → (stepStash o s).isOk = true ∧
        (stepStash o s).state.stashes = s.stashes) ∧
      (o.stash2 = .other →
        stepStash o s = .err "stash failed on retry"
          (indexWrite (indexReadTree (stateCleanup (emit (emit s "Stashing current changes…")
            "Could not stash, cleaning index and trying again.")) (s.treeOf h0)))) ∧
      (o.stash2 = .ok → (stepStash o s).isOk = true ∧
        (stepStash o s).state.stashes = s.stashes ++ [(s.treeOf h0, s.workTree)])) := by
  refine ⟨?_, ?_⟩
  · intro h1
    simp only [stepStash, h1]
  · intro h1
    refine ⟨?_, ?_, ?_, ?_⟩
    · cases h2 : o.stash2 <;>
        simp [stepStash, h1, h2, hh, RunResult.state]
    · intro h2
      simp [stepStash, h1, h2, hh, RunResult.state, RunResult.isOk]
    · intro h2
      simp [stepStash, h1, h2, hh]
    · intro h2
      simp [stepStash, h1, h2, hh, RunResult.state, RunResult.isOk, doStash]

theorem backup_marker_ne_creating (v nm : String) :
    ("[BACKUP_BRANCH] " ++ v) ≠ ("Creating backup branch: " ++ nm) := by
  intro h
  have h1 : ((("[BACKUP_BRANCH] " ++ v) : String).data.head?) =
      ((("Creating backup branch: " ++ nm) : String).data.head?) := by rw [h]
  have h2 : (some '[' : Option Char) = some 'C' := h1
  simp at h2

theorem backup_marker_ne_warning (v : String) :
    ("[BACKUP_BRANCH] " ++ v) ≠ "Warning: could not create backup branch." := by
  intro h
  have h1 : ((("[BACKUP_BRANCH] " ++ v) : String).data.head?) =
      (("Warning: could not create backup branch." : String).data.head?) := by rw [h]
  have h2 : (some '[' : Option Char) = some 'W' := h1
  simp at h2

/-- Claim C8: when backup-branch creation fails (for any reason — the whole
try-block is guarded), the run prints an explicit warning line, appends no
`[BACKUP_BRANCH]` marker, and continues with the remaining steps; the
`[BACKUP_BRANCH]` marker is appended exactly when creation succeeds. -/
theorem backup_warning (o : Oracle) (s : Repo) (h0 : Nat)
    (hh : headTarget s = some h0) :
    (o.backupOk = false →
      stepBackup o s =
        .ok (emit (emit s ("Creating backup branch: " ++ ("backup_branch_" ++ o.timestamp)))
          "Warning: could not create backup branch.")) ∧
    (∃ d, (stepBackup o s).state.output = s.output ++ d ∧
      ((∃ v, ("[BACKUP_BRANCH] " ++ v) ∈ d) ↔ o.backupOk = true)) := by
  constructor
  · intro hb
    simp only [stepBackup, headTarget_emit, hh, hb, Bool.false_eq_true, if_false]
  · cases hb : o.backupOk
    · refine ⟨["Creating backup branch: " ++ ("backup_branch_" ++ o.timestamp),
        "Warning: could not create backup branch."], ?_, ?_⟩
      · simp [stepBackup, hh, hb, RunResult.state, List.append_assoc]
      · simp only [hb, Bool.false_eq_true, iff_false]
        rintro ⟨v, hv⟩
        rcases List.mem_cons.mp hv with h | h
        · exact backup_marker_ne_creating v _ h
        · rcases List.mem_cons.mp h with h' | h'
          · exact backup_marker_ne_warning v h'
          · simp at h'
    · refine ⟨["Creating backup branch: " ++ ("backup_branch_" ++ o.timestamp),
        "[BACKUP_BRANCH] " ++ ("backup_branch_" ++ o.timestamp)], ?_, ?_⟩
      · simp [stepBackup, hh, hb, RunResult.state, List.append_assoc]
      · simp only [hb, iff_true]
        exact ⟨"backup_branch_" ++ o.timestamp, by simp⟩

/-- Claim C10: when the repository has no remote named `origin`, the fetch
step performs no fetch at all and raises no error: only the progress line is
printed, every reference is untouched, and the run continues with the
checkout and merge steps on the existing remote-tracking references. -/
theorem fetch_no_origin (o : Oracle) (stable : Bool) (s : Repo)
    (h : "origin" ∉ s.remotes) :
    stepFetch o stable s = .ok (emit s "Fetching from origin…") := by
  have hf : s.remotes.find? (fun r => r == "origin") = none := by
    rw [List.find?_eq_none]
    intro x hx
    simp only [beq_iff_eq]
    intro he
    exact h (he ▸ hx)
  simp only [stepFetch, emit_remotes, hf]

theorem markerTag_pre (v : String) : markerTag ("[PRE_UPDATE_HEAD] " ++ v) = some 0 := rfl

theorem markerTag_backup (v : String) : markerTag ("[BACKUP_BRANCH] " ++ v) = some 1 := rfl

theorem markerTag_tag (v : String) : markerTag ("[CHECKED_OUT_TAG] " ++ v) = some 2 := rfl

theorem markerTag_post (v : String) : markerTag ("[POST_UPDATE_HEAD] " ++ v) = some 3 := rfl

theorem markerTag_creating (v : String) :
    markerTag ("Creating backup branch: " ++ v) = none := rfl

theorem markerTag_tagline (v : String) :
    markerTag ("Checking out stable tag: " ++ v) = none := rfl

theorem markerTag_conflict (v : String) : markerTag ("Conflict in: " ++ v) = none := rfl

theorem isPrefixL_exists : ∀ (p l : List Char), isPrefixL p l = true → ∃ t, l = p ++ t
  | [], l, _ => ⟨l, rfl⟩
  | _ :: _, [], h => by simp [isPrefixL] at h
  | a :: as, b :: bs, h => by
    simp only [isPrefixL, Bool.and_eq_true, beq_iff_eq] at h
    obtain ⟨t, ht⟩ := isPrefixL_exists as bs h.2
    refine ⟨t, ?_⟩
    rw [ht, List.cons_append, h.1]

theorem stringData_inj (a b : String) (h : a.data = b.data) : a = b := by
  cases a; cases b; simp only at h; rw [h]

theorem startsWithL_exists (l p : String) (h : startsWithL l p = true) :
    ∃ v : String, l = p ++ v := by
  obtain ⟨t, ht⟩ := isPrefixL_exists p.data l.data h
  refine ⟨String.mk t, stringData_inj _ _ ?_⟩
  rw [stringData_append, ht]

/-- Every line the marker classifier accepts really has the exact form
`[MARKER_NAME] value`. -/
theorem markerTag_form (l : String) (k : Nat) (h : markerTag l = some k) :
    ∃ v, l = markerWord k ++ v := by
  unfold markerTag at h
  by_cases h0 : startsWithL l "[PRE_UPDATE_HEAD] " = true
  · rw [if_pos h0] at h
    cases h
    exact startsWithL_exists _ _ h0
  · rw [if_neg h0] at h
    by_cases h1 : startsWithL l "[BACKUP_BRANCH] " = true
    · rw [if_pos h1] at h
      cases h
      exact startsWithL_exists _ _ h1
    · rw [if_neg h1] at h
      by_cases h2 : startsWithL l "[CHECKED_OUT_TAG] " = true
      · rw [if_pos h2] at h
        cases h
        exact startsWithL_exists _ _ h2
      · rw [if_neg h2] at h
        by_cases h3 : startsWithL l "[POST_UPDATE_HEAD] " = true
        · rw [if_pos h3] at h
          cases h
          exact startsWithL_exists _ _ h3
        · rw [if_neg h3] at h
          cases h

/- ### Backup-branch reference name is distinct from every later write -/

theorem backupref_ne_remote (ts : String) :
    ("refs/heads/" ++ ("backup_branch_" ++ ts)) ≠ "refs/remotes/origin/master" := by
  intro h
  have h1 : ((("refs/heads/" ++ ("backup_branch_" ++ ts)) : String).data.get? 5) =
      (("refs/remotes/origin/master" : String).data.get? 5) := by rw [h]
  have h2 : (some 'h' : Option Char) = some 'r' := h1
  simp at h2

theorem backupref_ne_tag (ts n : String) :
    ("refs/heads/" ++ ("backup_branch_" ++ ts)) ≠ ("refs/tags/" ++ n) := by
  intro h
  have h1 : ((("refs/heads/" ++ ("backup_branch_" ++ ts)) : String).data.get? 5) =
      ((("refs/tags/" ++ n) : String).data.get? 5) := by rw [h]
  have h2 : (some 'h' : Option Char) = some 't' := h1
  simp at h2

theorem backupref_ne_master (ts : String) :
    ("refs/heads/" ++ ("backup_branch_" ++ ts)) ≠ "refs/heads/master" := by
  intro h
  have h1 : ((("refs/heads/" ++ ("backup_branch_" ++ ts)) : String).data.get? 11) =
      (("refs/heads/master" : String).data.get? 11) := by rw [h]
  have h2 : (some 'b' : Option Char) = some 'm' := h1
  simp at h2

theorem lookupRef_congr_refs (a b : Repo) (h : a.refs = b.refs) (n : String) :
    lookupRef a n = lookupRef b n := by
  unfold lookupRef
  rw [h]

theorem foldl_setRefTags_frame (ts : String) :
    ∀ (l : List (String × Nat)) (s : Repo),
      lookupRef (l.foldl (fun acc p => setRef acc ("refs/tags/" ++ p.1) p.2) s)
          ("refs/heads/" ++ ("backup_branch_" ++ ts)) =
        lookupRef s ("refs/heads/" ++ ("backup_branch_" ++ ts)) ∧
      (l.foldl (fun acc p => setRef acc ("refs/tags/" ++ p.1) p.2) s).head = s.head ∧
      (l.foldl (fun acc p => setRef acc ("refs/tags/" ++ p.1) p.2) s).output = s.output
  | [], s => ⟨rfl, rfl, rfl⟩
  | p :: l, s => by
    rw [List.foldl_cons]
    obtain ⟨h1, h2, h3⟩ := foldl_setRefTags_frame ts l (setRef s ("refs/tags/" ++ p.1) p.2)
    refine ⟨?_, ?_, ?_⟩
    · rw [h1, lookupRef_setRef_ne _ _ _ _ (backupref_ne_tag ts p.1)]
    · rw [h2, setRef_head]
    · rw [h3, setRef_output]

/- ### Per-step facts feeding the whole-run theorems -/

theorem stepStash_ok (o : Oracle) (s : Repo) (h0 : Nat) (hh : headTarget s = some h0)
    (hst : ¬(o.stash1 = .other ∧ o.stash2 = .other)) :
    ∃ s', stepStash o s = .ok s' ∧ s'.refs = s.refs ∧ s'.head = s.head ∧
      s'.remotes = s.remotes ∧ ∃ d, s'.output = s.output ++ d := by
  cases h1 : o.stash1 with
  | ok =>
    simp only [stepStash, h1, headTarget_emit, hh]
    refine ⟨_, rfl, ?_, ?_, ?_, ⟨["Stashing current changes…"], ?_⟩⟩ <;> simp
  | keyError =>
    simp only [stepStash, h1]
    refine ⟨_, rfl, ?_, ?_, ?_,
      ⟨["Stashing current changes…", "Nothing to stash."], ?_⟩⟩ <;> simp
  | other =>
    cases h2 : o.stash2 with
    | ok =>
      simp only [stepStash, h1, h2, headTarget_stateCleanup, headTarget_emit, hh]
      refine ⟨_, rfl, ?_, ?_, ?_,
        ⟨["Stashing current changes…",
          "Could not stash, cleaning index and trying again."], ?_⟩⟩ <;> simp
    | keyError =>
      simp only [stepStash, h1, h2, headTarget_stateCleanup, headTarget_emit, hh]
      refine ⟨_, rfl, ?_, ?_, ?_,
        ⟨["Stashing current changes…", "Could not stash, cleaning index and trying again.",
          "Nothing to stash."], ?_⟩⟩ <;> simp
    | other => exact absurd ⟨h1, h2⟩ hst

theorem stepStash_out (o : Oracle) (s : Repo) :
    (stepStash o s).state.refs = s.refs ∧ (stepStash o s).state.head = s.head ∧
    ∃ d, (stepStash o s).state.output = s.output ++ d ∧ d.filterMap markerTag = [] := by
  cases h1 : o.stash1 with
  | ok =>
    cases hht : headTarget s with
    | none =>
      simp only [stepStash, h1, headTarget_emit, hht, RunResult.state]
      refine ⟨?_, ?_, ⟨["Stashing current changes…"], ?_, rfl⟩⟩ <;> simp
    | some h0 =>
      simp only [stepStash, h1, headTarget_emit, hht, RunResult.state]
      refine ⟨?_, ?_, ⟨["Stashing current changes…"], ?_, rfl⟩⟩ <;> simp
  | keyError =>
    simp only [stepStash, h1, RunResult.state]
    refine ⟨?_, ?_, ⟨["Stashing current changes…", "Nothing to stash."], ?_, rfl⟩⟩ <;> simp
  | other =>
    cases hht : headTarget s with
    | none =>
      simp only [stepStash, h1, headTarget_stateCleanup, headTarget_emit, hht,
        RunResult.state]
      refine ⟨?_, ?_, ⟨["Stashing current changes…",
        "Could not stash, cleaning index and trying again."], ?_, rfl⟩⟩ <;> simp
    | some h0 =>
      cases h2 : o.stash2 with
      | ok =>
        simp only [stepStash, h1, h2, headTarget_stateCleanup, headTarget_emit, hht,
          RunResult.state]
        refine ⟨?_, ?_, ⟨["Stashing current changes…",
          "Could not stash, cleaning index and trying again."], ?_, rfl⟩⟩ <;> simp
      | keyError =>
        simp only [stepStash, h1, h2, headTarget_stateCleanup, headTarget_emit, hht,
          RunResult.state]
        refine ⟨?_, ?_, ⟨["Stashing current changes…",
          "Could not stash, cleaning index and trying again.",
          "Nothing to stash."], ?_, rfl⟩⟩ <;> simp
      | other =>
        simp only [stepStash, h1, h2, headTarget_stateCleanup, headTarget_emit, hht,
          RunResult.state]
        refine ⟨?_, ?_, ⟨["Stashing current changes…",
          "Could not stash, cleaning index and trying again."], ?_, rfl⟩⟩ <;> simp

theorem stepBackup_ok_created (o : Oracle) (s : Repo) (h0 : Nat)
    (hh : headTarget s = some h0) (hb : o.backupOk = true) :
    ∃ s', stepBackup o s = .ok s' ∧
      lookupRef s' ("refs/heads/" ++ ("backup_branch_" ++ o.timestamp)) = some h0 ∧
      s'.head = s.head ∧ s'.remotes = s.remotes ∧
      s'.output = s.output ++
        ["Creating backup branch: " ++ ("backup_branch_" ++ o.timestamp),
         "[BACKUP_BRANCH] " ++ ("backup_branch_" ++ o.timestamp)] := by
  simp only [stepBackup, headTarget_emit, hh, hb, if_true]
  refine ⟨_, rfl, ?_, ?_, ?_, ?_⟩
  · rw [lookupRef_emit]
    exact lookupRef_setRef_self _ _ _
  · simp
  · simp
  · simp

theorem stepBackup_out (o : Oracle) (s : Repo) :
    (stepBackup o s).state.refs = s.refs ∨
      (∃ h0, headTarget s = some h0 ∧
        (stepBackup o s).state.refs =
          setRefList s.refs ("refs/heads/" ++ ("backup_branch_" ++ o.timestamp)) h0) := by
  cases hht : headTarget s with
  | none =>
    left
    simp [stepBackup, hht, RunResult.state]
  | some h0 =>
    cases hb : o.backupOk with
    | false =>
      left
      simp [stepBackup, hht, hb, RunResult.state]
    | true =>
      right
      exact ⟨h0, rfl, by simp [stepBackup, hht, hb, RunResult.state, setRef]⟩

theorem stepBackup_outlines (o : Oracle) (s : Repo) :
    ∃ d, (stepBackup o s).state.output = s.output ++ d ∧
      (d.filterMap markerTag = [] ∨ d.filterMap markerTag = [1]) := by
  cases hht : headTarget s with
  | none =>
    refine ⟨["Creating backup branch: " ++ ("backup_branch_" ++ o.timestamp),
      "Warning: could not create backup branch."], ?_, Or.inl rfl⟩
    simp [stepBackup, hht, RunResult.state]
  | some h0 =>
    cases hb : o.backupOk with
    | false =>
      refine ⟨["Creating backup branch: " ++ ("backup_branch_" ++ o.timestamp),
        "Warning: could not create backup branch."], ?_, Or.inl rfl⟩
      simp [stepBackup, hht, hb, RunResult.state]
    | true =>
      refine ⟨["Creating backup branch: " ++ ("backup_branch_" ++ o.timestamp),
        "[BACKUP_BRANCH] " ++ ("backup_branch_" ++ o.timestamp)], ?_, Or.inr rfl⟩
      simp [stepBackup, hht, hb, RunResult.state]

theorem stepFetch_frame (o : Oracle) (stable : Bool) (s : Repo) (ts : String) :
    lookupRef (stepFetch o stable s).state ("refs/heads/" ++ ("backup_branch_" ++ ts)) =
      lookupRef s ("refs/heads/" ++ ("backup_branch_" ++ ts)) ∧
    ∃ d, (stepFetch o stable s).state.output = s.output ++ d ∧
      d.filterMap markerTag = [] := by
  cases hfind : s.remotes.find? (fun r => r == "origin") with
  | none =>
    simp only [stepFetch, emit_remotes, hfind, RunResult.state]
    exact ⟨rfl, ⟨["Fetching from origin…"], rfl, rfl⟩⟩
  | some r =>
    cases hfe : o.fetchErr with
    | true =>
      simp only [stepFetch, emit_remotes, hfind, hfe, if_true, RunResult.state]
      exact ⟨rfl, ⟨["Fetching from origin…"], rfl, rfl⟩⟩
    | false =>
      cases hfm : o.fetchedMaster with
      | none =>
        cases stable with
        | false =>
          simp only [stepFetch, emit_remotes, hfind, hfe, Bool.false_eq_true, if_false,
            hfm, RunResult.state]
          exact ⟨rfl, ⟨["Fetching from origin…"], rfl, rfl⟩⟩
        | true =>
          simp only [stepFetch, emit_remotes, hfind, hfe, Bool.false_eq_true, if_false,
            hfm, if_true, RunResult.state]
          obtain ⟨h1, _, h3⟩ :=
            foldl_setRefTags_frame ts o.fetchedTags (emit s "Fetching from origin…")
          rw [h1, h3]
          exact ⟨rfl, ⟨["Fetching from origin…"], rfl, rfl⟩⟩
      | some mid =>
        cases stable with
        | false =>
          simp only [stepFetch, emit_remotes, hfind, hfe, Bool.false_eq_true, if_false,
            hfm, RunResult.state]
          rw [lookupRef_setRef_ne _ _ _ _ (backupref_ne_remote ts)]
          refine ⟨rfl, ⟨["Fetching from origin…"], ?_, rfl⟩⟩
          simp
        | true =>
          simp only [stepFetch, emit_remotes, hfind, hfe, Bool.false_eq_true, if_false,
            hfm, if_true, RunResult.state]
          obtain ⟨h1, _, h3⟩ := foldl_setRefTags_frame ts o.fetchedTags
            (setRef (emit s "Fetching from origin…") "refs/remotes/origin/master" mid)
          rw [h1, h3, lookupRef_setRef_ne _ _ _ _ (backupref_ne_remote ts)]
          refine ⟨rfl, ⟨["Fetching from origin…"], ?_, rfl⟩⟩
          simp

theorem filterMap_markerTag_conflicts : ∀ (cs : List Conflict),
    (cs.map (fun c => "Conflict in: " ++ conflictPath c)).filterMap markerTag = []
  | [] => rfl
  | c :: cs => by
    simp only [List.map_cons, List.filterMap_cons, markerTag_conflict]
    exact filterMap_markerTag_conflicts cs

theorem stepCheckout_frame (s : Repo) (ts : String) :
    lookupRef (stepCheckout s).state ("refs/heads/" ++ ("backup_branch_" ++ ts)) =
      lookupRef s ("refs/heads/" ++ ("backup_branch_" ++ ts)) ∧
    ∃ d, (stepCheckout s).state.output = s.output ++ d ∧
      d.filterMap markerTag = [] := by
  cases hm : lookupRef s "refs/heads/master" with
  | some t =>
    simp only [stepCheckout, lookupRef_emit, hm, RunResult.andThen, RunResult.state]
    exact ⟨by simp, ⟨["Checking out master branch…"], by simp, rfl⟩⟩
  | none =>
    cases hr : lookupRef s "refs/remotes/origin/master" with
    | none =>
      simp only [stepCheckout, lookupRef_emit, hm, hr, RunResult.andThen, RunResult.state]
      exact ⟨by simp, ⟨["Checking out master branch…"], by simp, rfl⟩⟩
    | some t =>
      have hms : lookupRef (setRef (emit s "Checking out master branch…")
          "refs/heads/master" t) "refs/heads/master" = some t :=
        lookupRef_setRef_self _ _ _
      simp only [stepCheckout, lookupRef_emit, hm, hr, RunResult.andThen, hms,
        RunResult.state]
      rw [lookupRef_setHeadBranch, lookupRef_checkoutTree,
        lookupRef_setRef_ne _ _ _ _ (backupref_ne_master ts)]
      exact ⟨by simp, ⟨["Checking out master branch…"], by simp, rfl⟩⟩

theorem stepCheckout_ok_head (s s' : Repo) (h : stepCheckout s = .ok s') :
    s'.head = .branch "master" := by
  cases hm : lookupRef s "refs/heads/master" with
  | some t =>
    simp only [stepCheckout, lookupRef_emit, hm, RunResult.andThen] at h
    cases h
    simp
  | none =>
    cases hr : lookupRef s "refs/remotes/origin/master" with
    | none =>
      simp only [stepCheckout, lookupRef_emit, hm, hr, RunResult.andThen] at h
      cases h
    | some t =>
      simp only [stepCheckout, lookupRef_emit, hm, hr, RunResult.andThen,
        lookupRef_setRef_self] at h
      cases h
      simp

theorem pull_frame_master (o : PullOracle) (s : Repo) (ts : String)
    (hhd : s.head = .branch "master") :
    lookupRef (pull o s "origin" "master").state
        ("refs/heads/" ++ ("backup_branch_" ++ ts)) =
      lookupRef s ("refs/heads/" ++ ("backup_branch_" ++ ts)) ∧
    ∃ d, (pull o s "origin" "master").state.output = s.output ++ d ∧
      d.filterMap markerTag = [] := by
  cases hr : lookupRef s ("refs/remotes/" ++ "origin" ++ "/" ++ "master") with
  | none =>
    simp only [pull, hr, RunResult.state]
    exact ⟨by simp, ⟨[], by simp, rfl⟩⟩
  | some rid =>
    cases hu : o.upToDate with
    | true =>
      simp only [pull, hr, hu, if_true, RunResult.state]
      exact ⟨by simp, ⟨["Already up to date."], by simp, rfl⟩⟩
    | false =>
      cases hf : o.fastforward with
      | true =>
        simp only [pull, hr, hu, hf, Bool.false_eq_true, if_false, if_true,
          setRef_head, checkoutTree_head, hhd, lookupRef_setRef_self, RunResult.state]
        rw [heads_literal,
          lookupRef_setRef_ne _ _ _ _ (backupref_ne_master ts),
          lookupRef_setRef_ne _ _ _ _ (backupref_ne_master ts), lookupRef_checkoutTree]
        exact ⟨by simp, ⟨[], by simp, rfl⟩⟩
      | false =>
        cases hn : o.normal with
        | false =>
          simp only [pull, hr, hu, hf, hn, Bool.false_eq_true, if_false, RunResult.state]
          exact ⟨by simp, ⟨[], by simp, rfl⟩⟩
        | true =>
          cases hc : o.conflicts with
          | some cs =>
            simp only [pull, hr, hu, hf, hn, Bool.false_eq_true, if_false, if_true, hc,
              RunResult.state]
            rw [foldl_emit_eq]
            exact ⟨lookupRef_congr_refs _ _ rfl _,
              ⟨cs.map (fun c => "Conflict in: " ++ conflictPath c), by simp,
              filterMap_markerTag_conflicts cs⟩⟩
          | none =>
            cases hht : headTarget s with
            | none =>
              simp only [pull, hr, hu, hf, hn, Bool.false_eq_true, if_false, if_true, hc,
                headTarget_mergeWrite, hht, RunResult.state]
              exact ⟨by simp, ⟨[], by simp, rfl⟩⟩
            | some h0 =>
              simp only [pull, hr, hu, hf, hn, Bool.false_eq_true, if_false, if_true, hc,
                headTarget_mergeWrite, hht, addCommit_head, mergeWrite_head, hhd,
                RunResult.state]
              rw [heads_literal, lookupRef_stateCleanup,
                lookupRef_setRef_ne _ _ _ _ (backupref_ne_master ts),
                lookupRef_addCommit, lookupRef_mergeWrite]
              exact ⟨by simp, ⟨[], by simp, rfl⟩⟩

theorem stepTag_frame (stable : Bool) (s : Repo) (ts : String) :
    lookupRef (stepTag stable s).state ("refs/heads/" ++ ("backup_branch_" ++ ts)) =
      lookupRef s ("refs/heads/" ++ ("backup_branch_" ++ ts)) ∧
    ∃ d, (stepTag stable s).state.output = s.output ++ d ∧
      (d.filterMap markerTag = [] ∨ d.filterMap markerTag = [2]) := by
  cases stable with
  | false =>
    simp only [stepTag, Bool.false_eq_true, if_false, RunResult.state]
    exact ⟨by simp, ⟨[], by simp, Or.inl rfl⟩⟩
  | true =>
    cases hft : find_latest_stable_tag (s.refs.map (fun p => p.1)) with
    | none =>
      simp only [stepTag, if_true, hft, RunResult.state]
      exact ⟨by simp, ⟨["No stable tags found, staying on master."], by simp, Or.inl rfl⟩⟩
    | some t =>
      cases hlt : lookupRef s t with
      | none =>
        simp only [stepTag, if_true, hft, lookupRef_emit, hlt, RunResult.state]
        exact ⟨by simp, ⟨["Checking out stable tag: " ++ t], by simp, Or.inl rfl⟩⟩
      | some c =>
        simp only [stepTag, if_true, hft, lookupRef_emit, hlt, RunResult.state]
        exact ⟨by simp, ⟨["Checking out stable tag: " ++ t,
          "[CHECKED_OUT_TAG] " ++ t.replace "refs/tags/" ""], by simp, Or.inr rfl⟩⟩

theorem stepPost_frame (s : Repo) :
    (stepPost s).state.refs = s.refs ∧
    ∃ d, (stepPost s).state.output = s.output ++ d ∧
      (d.filterMap markerTag = [] ∨ d.filterMap markerTag = [3]) := by
  cases hht : headTarget s with
  | none =>
    simp only [stepPost, hht, RunResult.state]
    exact ⟨by simp, ⟨[], by simp, Or.inl rfl⟩⟩
  | some h0 =>
    simp only [stepPost, hht, RunResult.state]
    exact ⟨by simp, ⟨["[POST_UPDATE_HEAD] " ++ toString h0, "Done!"], by simp,
      Or.inr rfl⟩⟩

/-- Claim C2: in every run in which the backup branch is successfully created
(the run reaches the backup step and creation succeeds), the branch is
created at the pre-update HEAD commit — the value emitted as
`[PRE_UPDATE_HEAD]` — and no later step (fetch, checkout, merge, tag
checkout) repoints it: whether the run completes or aborts later, in the
final state the backup branch still resolves to that commit, and both the
`[PRE_UPDATE_HEAD]` and `[BACKUP_BRANCH]` lines are in the output. -/
theorem backup_branch_stable (o : Oracle) (args : List String) (s : Repo) (h0 : Nat)
    (hargs : ¬ args.length < 2) (hh : headTarget s = some h0) (hb : o.backupOk = true)
    (hst : ¬(o.stash1 = .other ∧ o.stash2 = .other)) :
    lookupRef (mainRun o args s).state
        ("refs/heads/" ++ ("backup_branch_" ++ o.timestamp)) = some h0 ∧
    ("[PRE_UPDATE_HEAD] " ++ toString h0) ∈ (mainRun o args s).state.output ∧
    ("[BACKUP_BRANCH] " ++ ("backup_branch_" ++ o.timestamp)) ∈
      (mainRun o args s).state.output := by
  have hmain : mainRun o args s =
      (stepPre s).andThen fun s =>
      (stepStash o s).andThen fun s =>
      (stepBackup o s).andThen fun s =>
      (stepFetch o (args.contains "--stable") s).andThen fun s =>
      (stepCheckout s).andThen fun s =>
      (pull o.pullO (emit s "Pulling latest changes…") "origin" "master").andThen fun s =>
      (stepTag (args.contains "--stable") s).andThen stepPost := by
    rw [mainRun, if_neg hargs]
  rw [hmain]
  have hpre : stepPre s = .ok (emit s ("[PRE_UPDATE_HEAD] " ++ toString h0)) := by
    simp only [stepPre, hh]
  rw [hpre]
  simp only [RunResult.andThen]
  obtain ⟨s2, hs2, h2refs, h2head, h2rem, d2, h2out⟩ :=
    stepStash_ok o (emit s ("[PRE_UPDATE_HEAD] " ++ toString h0)) h0
      (by rw [headTarget_emit]; exact hh) hst
  rw [hs2]
  simp only [RunResult.andThen]
  have hh2 : headTarget s2 = some h0 := by
    rw [headTarget_congr s2 (emit s ("[PRE_UPDATE_HEAD] " ++ toString h0)) h2head h2refs,
      headTarget_emit]
    exact hh
  obtain ⟨s3, hs3, h3look, h3head, h3rem, h3out⟩ := stepBackup_ok_created o s2 h0 hh2 hb
  rw [hs3]
  simp only [RunResult.andThen]
  have hmemPre3 : ("[PRE_UPDATE_HEAD] " ++ toString h0) ∈ s3.output := by
    rw [h3out, h2out]
    refine List.mem_append_left _ (List.mem_append_left _ ?_)
    simp [emit]
  have hmemBak3 : ("[BACKUP_BRANCH] " ++ ("backup_branch_" ++ o.timestamp)) ∈ s3.output := by
    rw [h3out]
    refine List.mem_append_right _ ?_
    simp
  obtain ⟨hf1, d4, hf2, _⟩ := stepFetch_frame o (args.contains "--stable") s3 o.timestamp
  cases hr4 : stepFetch o (args.contains "--stable") s3 with
  | err m s4 =>
    rw [hr4] at hf1 hf2
    simp only [RunResult.state] at hf1 hf2
    simp only [RunResult.andThen, RunResult.state]
    refine ⟨by rw [hf1]; exact h3look, ?_, ?_⟩
    · rw [hf2]; exact List.mem_append_left _ hmemPre3
    · rw [hf2]; exact List.mem_append_left _ hmemBak3
  | ok s4 =>
    rw [hr4] at hf1 hf2
    simp only [RunResult.state] at hf1 hf2
    simp only [RunResult.andThen]
    have h4look : lookupRef s4 ("refs/heads/" ++ ("backup_branch_" ++ o.timestamp))
        = some h0 := by rw [hf1]; exact h3look
    have hmemPre4 := hf2 ▸ List.mem_append_left d4 hmemPre3
    have hmemBak4 := hf2 ▸ List.mem_append_left d4 hmemBak3
    obtain ⟨hc1, d5, hc2, _⟩ := stepCheckout_frame s4 o.timestamp
    cases hr5 : stepCheckout s4 with
    | err m s5 =>
      rw [hr5] at hc1 hc2
      simp only [RunResult.state] at hc1 hc2
      simp only [RunResult.andThen, RunResult.state]
      refine ⟨by rw [hc1]; exact h4look, ?_, ?_⟩
      · rw [hc2]; exact List.mem_append_left _ hmemPre4
      · rw [hc2]; exact List.mem_append_left _ hmemBak4
    | ok s5 =>
      rw [hr5] at hc1 hc2
      simp only [RunResult.state] at hc1 hc2
      simp only [RunResult.andThen]
      have h5look : lookupRef s5 ("refs/heads/" ++ ("backup_branch_" ++ o.timestamp))
          = some h0 := by rw [hc1]; exact h4look
      have hmemPre5 := hc2 ▸ List.mem_append_left d5 hmemPre4
      have hmemBak5 := hc2 ▸ List.mem_append_left d5 hmemBak4
      have h5head : (emit s5 "Pulling latest changes…").head = .branch "master" := by
        rw [emit_head]
        exact stepCheckout_ok_head s4 s5 hr5
      obtain ⟨hp1, d6, hp2, _⟩ :=
        pull_frame_master o.pullO (emit s5 "Pulling latest changes…") o.timestamp h5head
      cases hr6 : pull o.pullO (emit s5 "Pulling latest changes…") "origin" "master" with
      | err m s6 =>
        rw [hr6] at hp1 hp2
        simp only [RunResult.state] at hp1 hp2
        simp only [RunResult.andThen, RunResult.state]
        refine ⟨by rw [hp1, lookupRef_emit]; exact h5look, ?_, ?_⟩
        · rw [hp2]
          refine List.mem_append_left _ ?_
          simp only [emit_output]
          exact List.mem_append_left _ hmemPre5
        · rw [hp2]
          refine List.mem_append_left _ ?_
          simp only [emit_output]
          exact List.mem_append_left _ hmemBak5
      | ok s6 =>
        rw [hr6] at hp1 hp2
        simp only [RunResult.state] at hp1 hp2
        simp only [RunResult.andThen]
        have h6look : lookupRef s6 ("refs/heads/" ++ ("backup_branch_" ++ o.timestamp))
            = some h0 := by rw [hp1, lookupRef_emit]; exact h5look
        have hmemPre6 : ("[PRE_UPDATE_HEAD] " ++ toString h0) ∈ s6.output := by
          rw [hp2]
          refine List.mem_append_left _ ?_
          simp only [emit_output]
          exact List.mem_append_left _ hmemPre5
        have hmemBak6 : ("[BACKUP_BRANCH] " ++ ("backup_branch_" ++ o.timestamp))
            ∈ s6.output := by
          rw [hp2]
          refine List.mem_append_left _ ?_
          simp only [emit_output]
          exact List.mem_append_left _ hmemBak5
        obtain ⟨ht1, d7, ht2, _⟩ := stepTag_frame (args.contains "--stable") s6 o.timestamp
        cases hr7 : stepTag (args.contains "--stable") s6 with
        | err m s7 =>
          rw [hr7] at ht1 ht2
          simp only [RunResult.state] at ht1 ht2
          simp only [RunResult.andThen, RunResult.state]
          refine ⟨by rw [ht1]; exact h6look, ?_, ?_⟩
          · rw [ht2]; exact List.mem_append_left _ hmemPre6
          · rw [ht2]; exact List.mem_append_left _ hmemBak6
        | ok s7 =>
          rw [hr7] at ht1 ht2
          simp only [RunResult.state] at ht1 ht2
          simp only [RunResult.andThen]
          have h7look : lookupRef s7 ("refs/heads/" ++ ("backup_branch_" ++ o.timestamp))
              = some h0 := by rw [ht1]; exact h6look
          have hmemPre7 := ht2 ▸ List.mem_append_left d7 hmemPre6
          have hmemBak7 := ht2 ▸ List.mem_append_left d7 hmemBak6
          obtain ⟨hq1, d8, hq2, _⟩ := stepPost_frame s7
          refine ⟨?_, ?_, ?_⟩
          · rw [lookupRef_congr_refs _ s7 hq1]
            exact h7look
          · rw [hq2]; exact List.mem_append_left _ hmemPre7
          · rw [hq2]; exact List.mem_append_left _ hmemBak7

theorem MBound_append {n k : Nat} {A d : List String} (h : MBound n A)
    (hd : d.filterMap markerTag = [] ∨ d.filterMap markerTag = [k]) (hnk : n ≤ k) :
    MBound k (A ++ d) := by
  rcases hd with hd | hd
  · constructor
    · rw [List.filterMap_append, hd, List.append_nil]
      exact h.1
    · intro j hj
      rw [List.filterMap_append, hd, List.append_nil] at hj
      exact le_trans (h.2 j hj) hnk
  · constructor
    · rw [List.filterMap_append, hd, List.chain'_append]
      refine ⟨h.1, List.chain'_singleton k, ?_⟩
      intro x hx y hy
      have hyk : y = k := by
        have := hy
        simp at this
        rw [this]
      have hxm : x ∈ A.filterMap markerTag := getLast?_mem_list (Option.mem_def.mp hx)
      exact hyk ▸ le_trans (h.2 x hxm) hnk
    · intro j hj
      rw [List.filterMap_append, hd] at hj
      rcases List.mem_append.mp hj with hj | hj
      · exact le_trans (h.2 j hj) hnk
      · simp at hj
        rw [hj]

/-- Claim C9: every structured marker that is emitted is a single line of
the exact form `[MARKER_NAME] value`, and the emitted markers appear in the
relative order `[PRE_UPDATE_HEAD]`, `[BACKUP_BRANCH]`, `[CHECKED_OUT_TAG]`,
`[POST_UPDATE_HEAD]` — a later marker is never printed before an earlier
one, whether the run completes or aborts. -/
theorem markers_ordered (o : Oracle) (args : List String) (s : Repo)
    (hout : s.output = []) :
    (∀ l ∈ (mainRun o args s).state.output, ∀ k, markerTag l = some k →
      ∃ v, l = markerWord k ++ v) ∧
    List.Chain' (· ≤ ·) ((mainRun o args s).state.output.filterMap markerTag) := by
  refine ⟨fun l _ k hk => markerTag_form l k hk, ?_⟩
  by_cases hargs : args.length < 2
  · rw [mainRun, if_pos hargs]
    simp only [RunResult.state, emit_output, hout, List.nil_append]
    have husage : (["Usage: python update_comfyui.py <repo_path> [--stable]"]).filterMap
        markerTag = [] := rfl
    rw [husage]
    exact List.chain'_nil
  · have hmain : mainRun o args s =
        (stepPre s).andThen fun s =>
        (stepStash o s).andThen fun s =>
        (stepBackup o s).andThen fun s =>
        (stepFetch o (args.contains "--stable") s).andThen fun s =>
        (stepCheckout s).andThen fun s =>
        (pull o.pullO (emit s "Pulling latest changes…") "origin" "master").andThen fun s =>
        (stepTag (args.contains "--stable") s).andThen stepPost := by
      rw [mainRun, if_neg hargs]
    rw [hmain]
    cases hht : headTarget s with
    | none =>
      simp only [stepPre, hht, RunResult.andThen, RunResult.state, hout]
      simp
    | some h0 =>
      simp only [stepPre, hht, RunResult.andThen]
      have hM1 : MBound 0 ((emit s ("[PRE_UPDATE_HEAD] " ++ toString h0)).output) := by
        rw [emit_output, hout, List.nil_append]
        have hfm : ([("[PRE_UPDATE_HEAD] " ++ toString h0)]).filterMap markerTag = [0] := by
          simp only [List.filterMap_cons, List.filterMap_nil, markerTag_pre]
        constructor
        · rw [hfm]
          exact List.chain'_singleton 0
        · intro j hj
          rw [hfm] at hj
          simp at hj
          rw [hj]
      obtain ⟨_, _, d2, h2out, h2fm⟩ :=
        stepStash_out o (emit s ("[PRE_UPDATE_HEAD] " ++ toString h0))
      cases hr2 : stepStash o (emit s ("[PRE_UPDATE_HEAD] " ++ toString h0)) with
      | err m s2 =>
        rw [hr2] at h2out
        simp only [RunResult.state] at h2out
        simp only [RunResult.andThen, RunResult.state, h2out]
        exact (MBound_append hM1 (Or.inl h2fm) (le_refl 0)).1
      | ok s2 =>
        rw [hr2] at h2out
        simp only [RunResult.state] at h2out
        simp only [RunResult.andThen]
        have hM2 : MBound 0 s2.output := h2out ▸ MBound_append hM1 (Or.inl h2fm) (le_refl 0)
        obtain ⟨d3, h3out, h3fm⟩ := stepBackup_outlines o s2
        cases hr3 : stepBackup o s2 with
        | err m s3 =>
          rw [hr3] at h3out
          simp only [RunResult.state] at h3out
          simp only [RunResult.andThen, RunResult.state, h3out]
          exact (MBound_append hM2 h3fm (Nat.zero_le 1)).1
        | ok s3 =>
          rw [hr3] at h3out
          simp only [RunResult.state] at h3out
          simp only [RunResult.andThen]
          have hM3 : MBound 1 s3.output := h3out ▸ MBound_append hM2 h3fm (Nat.zero_le 1)
          obtain ⟨_, d4, h4out, h4fm⟩ :=
            stepFetch_frame o (args.contains "--stable") s3 o.timestamp
          cases hr4 : stepFetch o (args.contains "--stable") s3 with
          | err m s4 =>
            rw [hr4] at h4out
            simp only [RunResult.state] at h4out
            simp only [RunResult.andThen, RunResult.state, h4out]
            exact (MBound_append hM3 (Or.inl h4fm) (le_refl 1)).1
          | ok s4 =>
            rw [hr4] at h4out
            simp only [RunResult.state] at h4out
            simp only [RunResult.andThen]
            have hM4 : MBound 1 s4.output :=
              h4out ▸ MBound_append hM3 (Or.inl h4fm) (le_refl 1)
            obtain ⟨_, d5, h5out, h5fm⟩ := stepCheckout_frame s4 o.timestamp
            cases hr5 : stepCheckout s4 with
            | err m s5 =>
              rw [hr5] at h5out
              simp only [RunResult.state] at h5out
              simp only [RunResult.andThen, RunResult.state, h5out]
              exact (MBound_append hM4 (Or.inl h5fm) (le_refl 1)).1
            | ok s5 =>
              rw [hr5] at h5out
              simp only [RunResult.state] at h5out
              simp only [RunResult.andThen]
              have hM5 : MBound 1 s5.output :=
                h5out ▸ MBound_append hM4 (Or.inl h5fm) (le_refl 1)
              have hM5e : MBound 1 ((emit s5 "Pulling latest changes…").output) := by
                rw [emit_output]
                exact MBound_append hM5 (Or.inl rfl) (le_refl 1)
              have h5head : (emit s5 "Pulling latest changes…").head = .branch "master" := by
                rw [emit_head]
                exact stepCheckout_ok_head s4 s5 hr5
              obtain ⟨_, d6, h6out, h6fm⟩ :=
                pull_frame_master o.pullO (emit s5 "Pulling latest changes…")
                  o.timestamp h5head
              cases hr6 : pull o.pullO (emit s5 "Pulling latest changes…")
                  "origin" "master" with
              | err m s6 =>
                rw [hr6] at h6out
                simp only [RunResult.state] at h6out
                simp only [RunResult.andThen, RunResult.state, h6out]
                exact (MBound_append hM5e (Or.inl h6fm) (le_refl 1)).1
              | ok s6 =>
                rw [hr6] at h6out
                simp only [RunResult.state] at h6out
                simp only [RunResult.andThen]
                have hM6 : MBound 1 s6.output :=
                  h6out ▸ MBound_append hM5e (Or.inl h6fm) (le_refl 1)
                obtain ⟨_, d7, h7out, h7fm⟩ :=
                  stepTag_frame (args.contains "--stable") s6 o.timestamp
                cases hr7 : stepTag (args.contains "--stable") s6 with
                | err m s7 =>
                  rw [hr7] at h7out
                  simp only [RunResult.state] at h7out
                  simp only [RunResult.andThen, RunResult.state, h7out]
                  exact (MBound_append hM6 h7fm (by omega)).1
                | ok s7 =>
                  rw [hr7] at h7out
                  simp only [RunResult.state] at h7out
                  simp only [RunResult.andThen]
                  have hM7 : MBound 2 s7.output :=
                    h7out ▸ MBound_append hM6 h7fm (by omega)
                  obtain ⟨_, d8, h8out, h8fm⟩ := stepPost_frame s7
                  rw [h8out]
                  exact (MBound_append hM7 h8fm (by omega)).1

/- ### Witnesses -/

/-- Witness for C6 at a concrete repository. -/
theorem pull_up_to_date_witness :
    lookupRef sampleRepo "refs/remotes/origin/master" = some 2 ∧ oUp.upToDate = true ∧
    ∃ s', pull oUp sampleRepo "origin" "master" = .ok s' ∧
      s'.refs = sampleRepo.refs ∧ s'.head = sampleRepo.head ∧
      s'.indexMem = sampleRepo.indexMem ∧ s'.indexDisk = sampleRepo.indexDisk ∧
      s'.workTree = sampleRepo.workTree ∧ s'.created = sampleRepo.created ∧
      s'.nextId = sampleRepo.nextId ∧ s'.merging = sampleRepo.merging ∧
      s'.output = sampleRepo.output ++ ["Already up to date."] :=
  ⟨by decide, rfl, pull_up_to_date oUp sampleRepo 2 (by decide) rfl⟩

/-- Witness for C4 at a concrete repository. -/
theorem pull_fastforward_witness :
    lookupRef sampleRepo "refs/remotes/origin/master" = some 2 ∧
    oFf.upToDate = false ∧ oFf.fastforward = true ∧
    headTarget sampleRepo = some 1 ∧
    ∃ s', pull oFf sampleRepo "origin" "master" = .ok s' ∧
      lookupRef s' "refs/heads/master" = some 2 ∧
      headTarget s' = some 2 ∧
      s'.workTree = sampleRepo.treeOf 2 ∧ s'.indexMem = sampleRepo.treeOf 2 ∧
      s'.created = sampleRepo.created ∧ s'.nextId = sampleRepo.nextId :=
  ⟨by decide, rfl, rfl, by decide,
    pull_fastforward oFf sampleRepo 2 1 (by decide) rfl rfl (by decide)⟩

/-- Witness for C1 at a concrete repository with one conflicting path. -/
theorem pull_conflicts_witness :
    lookupRef sampleRepo "refs/remotes/origin/master" = some 2 ∧
    oConf.upToDate = false ∧ oConf.fastforward = false ∧ oConf.normal = true ∧
    oConf.conflicts = some [{ ancestor := some "file.txt", ours := none, theirs := none }] ∧
    ∃ s', pull oConf sampleRepo "origin" "master" =
        .err "Merge conflicts detected. Aborting." s' ∧
      (∀ c ∈ [({ ancestor := some "file.txt", ours := none, theirs := none } : Conflict)],
        ("Conflict in: " ++ conflictPath c) ∈ s'.output) ∧
      s'.created = sampleRepo.created ∧ s'.nextId = sampleRepo.nextId ∧
      s'.merging = true ∧ s'.refs = sampleRepo.refs ∧ s'.head = sampleRepo.head ∧
      s'.output = sampleRepo.output ++
        [({ ancestor := some "file.txt", ours := none, theirs := none } : Conflict)].map
          (fun c => "Conflict in: " ++ conflictPath c) :=
  ⟨by decide, rfl, rfl, rfl, rfl,
    pull_conflicts oConf sampleRepo 2
      [{ ancestor := some "file.txt", ours := none, theirs := none }]
      (by decide) rfl rfl rfl rfl⟩

/-- Witness for C5 at a concrete repository. -/
theorem pull_merge_commit_witness :
    lookupRef sampleRepo "refs/remotes/origin/master" = some 2 ∧
    oMerge.upToDate = false ∧ oMerge.fastforward = false ∧ oMerge.normal = true ∧
    oMerge.conflicts = none ∧ headTarget sampleRepo = some 1 ∧
    ∃ s', pull oMerge sampleRepo "origin" "master" = .ok s' ∧
      s'.created = sampleRepo.created ++ [(sampleRepo.nextId,
        { parents := [1, 2], message := "Merge!",
          tree := oMerge.mergedTree, author := sampleRepo.defaultSig })] ∧
      s'.nextId = sampleRepo.nextId + 1 ∧ s'.merging = false :=
  ⟨by decide, rfl, rfl, rfl, rfl, by decide,
    pull_merge_commit oMerge sampleRepo 2 1 (by decide) rfl rfl rfl rfl (by decide)⟩

/-- Witness for C7 at a concrete repository and stash oracle. -/
theorem snapshot_retry_witness :
    headTarget sampleRepo = some 1 ∧
    ((oRepair.stash1 = .keyError →
      stepStash oRepair sampleRepo =
        .ok (emit (emit sampleRepo "Stashing current changes…") "Nothing to stash.")) ∧
    (oRepair.stash1 = .other →
      ((stepStash oRepair sampleRepo).state.indexMem = sampleRepo.treeOf 1 ∧
        (stepStash oRepair sampleRepo).state.indexDisk = sampleRepo.treeOf 1) ∧
      (oRepair.stash2 = .keyError → (stepStash oRepair sampleRepo).isOk = true ∧
        (stepStash oRepair sampleRepo).state.stashes = sampleRepo.stashes) ∧
      (oRepair.stash2 = .other →
        stepStash oRepair sampleRepo = .err "stash failed on retry"
          (indexWrite (indexReadTree (stateCleanup
            (emit (emit sampleRepo "Stashing current changes…")
              "Could not stash, cleaning index and trying again.")) (sampleRepo.treeOf 1)))) ∧
      (oRepair.stash2 = .ok → (stepStash oRepair sampleRepo).isOk = true ∧
        (stepStash oRepair sampleRepo).state.stashes =
          sampleRepo.stashes ++ [(sampleRepo.treeOf 1, sampleRepo.workTree)]))) :=
  ⟨by decide, snapshot_retry oRepair sampleRepo 1 (by decide)⟩

/-- Witness for C8 at a concrete repository and failing backup oracle. -/
theorem backup_warning_witness :
    headTarget sampleRepo = some 1 ∧
    ((oRepair.backupOk = false →
      stepBackup oRepair sampleRepo =
        .ok (emit (emit sampleRepo
          ("Creating backup branch: " ++ ("backup_branch_" ++ oRepair.timestamp)))
          "Warning: could not create backup branch.")) ∧
    (∃ d, (stepBackup oRepair sampleRepo).state.output = sampleRepo.output ++ d ∧
      ((∃ v, ("[BACKUP_BRANCH] " ++ v) ∈ d) ↔ oRepair.backupOk = true))) :=
  ⟨by decide, backup_warning oRepair sampleRepo 1 (by decide)⟩

/-- Witness for C10 at a concrete repository without an `origin` remote. -/
theorem fetch_no_origin_witness :
    "origin" ∉ sampleRepoNoOrigin.remotes ∧
    stepFetch oRun true sampleRepoNoOrigin =
      .ok (emit sampleRepoNoOrigin "Fetching from origin…") :=
  ⟨by decide, fetch_no_origin oRun true sampleRepoNoOrigin (by decide)⟩

/-- Witness for C2 at a concrete full run. -/
theorem backup_branch_stable_witness :
    ¬ (["update_comfyui.py", "/repo"] : List String).length < 2 ∧
    headTarget sampleRepo = some 1 ∧ oRun.backupOk = true ∧
    ¬(oRun.stash1 = .other ∧ oRun.stash2 = .other) ∧
    (lookupRef (mainRun oRun ["update_comfyui.py", "/repo"] sampleRepo).state
        ("refs/heads/" ++ ("backup_branch_" ++ oRun.timestamp)) = some 1 ∧
    ("[PRE_UPDATE_HEAD] " ++ toString 1) ∈
      (mainRun oRun ["update_comfyui.py", "/repo"] sampleRepo).state.output ∧
    ("[BACKUP_BRANCH] " ++ ("backup_branch_" ++ oRun.timestamp)) ∈
      (mainRun oRun ["update_comfyui.py", "/repo"] sampleRepo).state.output) :=
  ⟨by decide, by decide, rfl, by decide,
    backup_branch_stable oRun ["update_comfyui.py", "/repo"] sampleRepo 1
      (by decide) (by decide) rfl (by decide)⟩

/-- Witness for C9 at a concrete full run. -/
theorem markers_ordered_witness :
    sampleRepo.output = [] ∧
    ((∀ l ∈ (mainRun oRun ["update_comfyui.py", "/repo"] sampleRepo).state.output,
      ∀ k, markerTag l = some k → ∃ v, l = markerWord k ++ v) ∧
    List.Chain' (· ≤ ·)
      ((mainRun oRun ["update_comfyui.py", "/repo"] sampleRepo).state.output.filterMap
        markerTag)) :=
  ⟨rfl, markers_ordered oRun ["update_comfyui.py", "/repo"] sampleRepo rfl⟩
